import Mathlib

/-
Verification of the reward ledger and leaderboard engine of the
playful-marketplace repository (services/gamification, services/order,
shared/redis, shared/models), via a shallow embedding of the Go code.

Modelling conventions:
- Go string-based enum types (UserLevel, BadgeType, OrderStatus, UserRole)
  are Lean String abbreviations with the same constant values; the Go zero
  value is the empty string.
- uuid.UUID values are Strings; uuid.Nil is ""; uuid.New() is modelled by a
  fresh-id counter (DBState.nextID) so every created row gets a new id.
- Go int is Int; float64 money amounts (prices, total_spent, total_sales)
  are rationals; Go int(f) conversion truncates toward zero (goTrunc).
- The database is an explicit DBState record of row lists; a gorm Create
  appends a row, an Update maps over the rows.  Writes that the Go code
  checks (or ignores) errors on take a Bool parameter telling whether the
  write lands, mirroring the err != nil branches of the source.
- goroutine-dispatched work (leaderboard upserts, processDeliveredOrder) is
  modelled synchronously where a claim is about what that work does;
  timestamps (EarnedAt, CreatedAt) are dropped as no claim mentions them.
-/

/-! ## Enumerations (shared/models, string enums) -/

abbrev UserLevel := String

def LevelBronze : UserLevel := "bronze"

def LevelSilver : UserLevel := "silver"

def LevelGold : UserLevel := "gold"

def LevelPlatinum : UserLevel := "platinum"

abbrev BadgeType := String

def BadgeFirstOrder : BadgeType := "first_order"

def BadgeTopSeller : BadgeType := "top_seller"

def BadgeBigSpender : BadgeType := "big_spender"

def BadgeEarlyBird : BadgeType := "early_bird"

def BadgeReviewer : BadgeType := "reviewer"

def BadgeReferrer : BadgeType := "referrer"

abbrev UserRole := String

def RoleBuyer : UserRole := "buyer"

def RoleSeller : UserRole := "seller"

abbrev OrderStatus := String

def OrderPending : OrderStatus := "pending"

def OrderConfirmed : OrderStatus := "confirmed"

def OrderProcessing : OrderStatus := "processing"

def OrderShipped : OrderStatus := "shipped"

def OrderDelivered : OrderStatus := "delivered"

def OrderCancelled : OrderStatus := "cancelled"

/-! ## Data model (shared/models/models.go) -/

/-- User row: id, name, role, stored level, materialized XP counter, cumulative
spend and sales revenue. -/
structure User where
  id : String
  name : String
  role : UserRole
  level : UserLevel
  totalXP : Int
  totalSpent : ℚ
  totalSales : ℚ
  deriving DecidableEq

/-- XPTransaction row: an immutable ledger entry. -/
structure XPTransaction where
  id : Nat
  userID : String
  amount : Int
  reason : String
  reference : String
  deriving DecidableEq

/-- Badge catalog row. -/
structure Badge where
  id : String
  type : BadgeType
  name : String
  xpReward : Int
  deriving DecidableEq

/-- UserBadge row: one badge award. -/
structure UserBadge where
  id : Nat
  userID : String
  badgeID : String
  deriving DecidableEq

/-- OrderItem row, with the product's seller id denormalized (the Go code
reaches it through item.Product.SellerID). -/
structure OrderItem where
  productID : String
  sellerID : String
  quantity : Int
  price : ℚ
  deriving DecidableEq

/-- Order row with its preloaded items. -/
structure Order where
  id : String
  buyerID : String
  totalAmount : ℚ
  status : OrderStatus
  notes : String
  items : List OrderItem
  deriving DecidableEq

/-- The relational store as row lists plus a fresh-id counter. -/
structure DBState where
  users : List User
  xpTransactions : List XPTransaction
  badges : List Badge
  userBadges : List UserBadge
  orders : List Order
  nextID : Nat
  deriving DecidableEq

/-! ## Store helpers -/

/-- DB.First(&user, userID): first user row with the given id. -/
def userRec (s : DBState) (userID : String) : Option User :=
  s.users.find? (fun u => u.id = userID)

/-- Update("total_xp", newXP) on the rows matching the id: sets the counter
to an absolute value (the read-modify-write shape used by the AddXP handler). -/
def setUserTotalXP (s : DBState) (userID : String) (newXP : Int) : DBState :=
  { s with users := s.users.map (fun u => if u.id = userID then { u with totalXP := newXP } else u) }

/-- Update("total_xp", total_xp + amount): storage-level increment. -/
def incUserTotalXP (s : DBState) (userID : String) (amount : Int) : DBState :=
  { s with users := s.users.map (fun u => if u.id = userID then { u with totalXP := u.totalXP + amount } else u) }

/-- Update("level", newLevel) on the rows matching the id. -/
def setUserLevel (s : DBState) (userID : String) (newLevel : UserLevel) : DBState :=
  { s with users := s.users.map (fun u => if u.id = userID then { u with level := newLevel } else u) }

/-- Update("total_sales", total_sales + amount): storage-level increment. -/
def incTotalSales (s : DBState) (userID : String) (amount : ℚ) : DBState :=
  { s with users := s.users.map (fun u => if u.id = userID then { u with totalSales := u.totalSales + amount } else u) }

/-- The ledger sum for one user: sum of the amounts of their transactions. -/
def sumXPFor (s : DBState) (userID : String) : Int :=
  ((s.xpTransactions.filter (fun t => t.userID = userID)).map (fun t => t.amount)).sum

/-- Materialized XP counter of the first matching user row (0 when absent). -/
def userTotalXP (s : DBState) (userID : String) : Int :=
  ((userRec s userID).map (fun u => u.totalXP)).getD 0

/-- Stored level of the first matching user row. -/
def userLevelOf (s : DBState) (userID : String) : Option UserLevel :=
  (userRec s userID).map (fun u => u.level)

/-- Total sales of the first matching user row (0 when absent). -/
def userTotalSales (s : DBState) (userID : String) : ℚ :=
  ((userRec s userID).map (fun u => u.totalSales)).getD 0

/-- Count(orders where buyer_id = userID). -/
def countOrdersByBuyer (s : DBState) (buyerID : String) : Nat :=
  (s.orders.filter (fun o => o.buyerID = buyerID)).length

/-- Row count of the orders x order_items x products join restricted to
delivered orders whose item's product is sold by the given seller. -/
def countDeliveredSales (s : DBState) (sellerID : String) : Nat :=
  (((s.orders.filter (fun o => o.status = OrderDelivered)).map
    (fun o => (o.items.filter (fun it => it.sellerID = sellerID)).length)).sum)

/-- Count of all user rows. -/
def countUsers (s : DBState) : Nat :=
  s.users.length

/-! ## Level Resolver (gamification/handlers helpers) -/

/-- calculateLevel from the gamification handler: descending threshold checks. -/
def calculateLevel (xp : Int) : UserLevel :=
  if 5000 ≤ xp then LevelPlatinum
  else if 1500 ≤ xp then LevelGold
  else if 500 ≤ xp then LevelSilver
  else LevelBronze

/-- Numeric rank of a level tier, for stating monotonicity. -/
def levelRank (l : UserLevel) : Nat :=
  if l = LevelPlatinum then 3
  else if l = LevelGold then 2
  else if l = LevelSilver then 1
  else 0

/-- Reference threshold function written from the spec text: inclusive lower
bounds, Bronze [0,500), Silver [500,1500), Gold [1500,5000), Platinum from
5000 up. -/
def levelSpec (xp : Int) : UserLevel :=
  if 0 ≤ xp ∧ xp < 500 then LevelBronze
  else if 500 ≤ xp ∧ xp < 1500 then LevelSilver
  else if 1500 ≤ xp ∧ xp < 5000 then LevelGold
  else LevelPlatinum

/-! ## XP operations -/

/-- Error results surfaced to HTTP callers (utils response helpers). -/
inductive GoErr where
  | validationError : String → GoErr
  | notFound : String → GoErr
  | internalError : String → GoErr
  | forbidden : String → GoErr
  deriving DecidableEq

/-- Request body of POST /gamify/xp. -/
structure AddXPRequest where
  userID : String
  amount : Int
  reason : String
  reference : String
  deriving DecidableEq

/-- Response data of a successful AddXP call. -/
structure AddXPResult where
  userID : String
  oldXP : Int
  newXP : Int
  xpGained : Int
  oldLevel : UserLevel
  newLevel : UserLevel
  leveledUp : Bool
  deriving DecidableEq

/-- AddXP handler (gamification service).  createOk / updateOk / levelOk tell
whether the transaction insert, the total_xp update and the level update land;
the first two errors are surfaced, the level-update error is discarded by the
Go code.  The goroutine that refreshes the leaderboard cache is outside this
function.  The returned state keeps whatever rows were written before a
failing write, as the Go code has no surrounding transaction here. -/
def AddXP (s : DBState) (req : AddXPRequest) (createOk updateOk levelOk : Bool) :
    DBState × Except GoErr AddXPResult :=
  if req.userID = "" ∨ req.amount = 0 ∨ req.reason = "" then
    (s, .error (.validationError "User ID, amount, and reason are required"))
  else
    match userRec s req.userID with
    | none => (s, .error (.notFound "User not found"))
    | some user =>
      if createOk = false then
        (s, .error (.internalError "Failed to create XP transaction"))
      else
        let tx : XPTransaction :=
          { id := s.nextID, userID := req.userID, amount := req.amount,
            reason := req.reason, reference := req.reference }
        let s1 : DBState :=
          { s with xpTransactions := s.xpTransactions ++ [tx], nextID := s.nextID + 1 }
        let oldXP := user.totalXP
        let newXP := oldXP + req.amount
        if updateOk = false then
          (s1, .error (.internalError "Failed to update user XP"))
        else
          let s2 := setUserTotalXP s1 req.userID newXP
          let oldLevel := calculateLevel oldXP
          let newLevel := calculateLevel newXP
          let leveledUp : Bool := decide (newLevel ≠ oldLevel)
          let s3 := if leveledUp && levelOk then setUserLevel s2 req.userID newLevel else s2
          (s3, .ok { userID := req.userID, oldXP := oldXP, newXP := newXP,
                     xpGained := req.amount, oldLevel := oldLevel,
                     newLevel := newLevel, leveledUp := leveledUp })

/-- awardXP helper of the gamification handler: creates a ledger row and
increments total_xp, both with their errors discarded (the function returns
nothing in Go). -/
def awardXP (s : DBState) (createOk updateOk : Bool) (userID : String)
    (amount : Int) (reason : String) : DBState :=
  let s1 : DBState :=
    if createOk then
      { s with
        xpTransactions := s.xpTransactions ++
          [{ id := s.nextID, userID := userID, amount := amount,
             reason := reason, reference := "" }],
        nextID := s.nextID + 1 }
    else s
  if updateOk then incUserTotalXP s1 userID amount else s1

/-- callGamificationService in the order service: directly creates the XP
transaction and increments total_xp, both with their errors discarded. -/
def callGamificationService (s : DBState) (createOk updateOk : Bool)
    (userID : String) (xpAmount : Int) (reason reference : String) : DBState :=
  let s1 : DBState :=
    if createOk then
      { s with
        xpTransactions := s.xpTransactions ++
          [{ id := s.nextID, userID := userID, amount := xpAmount,
             reason := reason, reference := reference }],
        nextID := s.nextID + 1 }
    else s
  if updateOk then incUserTotalXP s1 userID xpAmount else s1

/-! ## Badge Engine (gamification handler) -/

/-- Badge type resolved through the badges table from a user_badges row:
DB.First(&badgeInfo, badge.BadgeID), with the Go zero value "" when the
referenced badge row is missing. -/
def ubType (s : DBState) (ub : UserBadge) : BadgeType :=
  ((s.badges.find? (fun b => b.id = ub.badgeID)).map (fun b => b.type)).getD ""

/-- The existingBadgeTypes set built at the top of checkAndAwardBadges:
the badge types already held by the user. -/
def existingBadgeTypes (s : DBState) (userID : String) : List BadgeType :=
  (s.userBadges.filter (fun ub => ub.userID = userID)).map (fun ub => ubType s ub)

/-- At-most-one-award-per-(user, badge type) invariant: no two user_badges
rows agree on both the user and the badge type. -/
abbrev badgeAwardUnique (s : DBState) : Prop :=
  s.userBadges.Pairwise (fun a b => ¬ (a.userID = b.userID ∧ ubType s a = ubType s b))

/-- Rule switch of checkAndAwardBadges in the gamification handler; Reviewer,
Referrer and unknown types evaluate to false. -/
def badgeShouldAward (s : DBState) (user : User) (t : BadgeType) : Bool :=
  if t = BadgeFirstOrder then decide (1 ≤ countOrdersByBuyer s user.id)
  else if t = BadgeTopSeller then decide (10 ≤ countDeliveredSales s user.id)
  else if t = BadgeBigSpender then decide ((5000 : ℚ) ≤ user.totalSpent)
  else if t = BadgeEarlyBird then decide (countUsers s ≤ 100)
  else false

/-- Write outcomes for one checkAndAwardBadges invocation, keyed by the badge
row id: whether the user_badges insert lands, and whether the two writes of
the nested awardXP land.  The Go code branches on the insert error and
discards the awardXP errors. -/
structure AwardOracle where
  insertOk : String → Bool
  xpCreateOk : String → Bool
  xpUpdateOk : String → Bool

/-- Oracle whose writes all succeed. -/
def allWritesOk : AwardOracle :=
  { insertOk := fun _ => true, xpCreateOk := fun _ => true, xpUpdateOk := fun _ => true }

/-- One successful award inside the checkAndAwardBadges loop: insert the
user_badges row, then (when the badge pays XP) run the nested awardXP. -/
def awardStep (user : User) (o : AwardOracle) (s : DBState) (badge : Badge) : DBState :=
  let ub : UserBadge := { id := s.nextID, userID := user.id, badgeID := badge.id }
  let s1 : DBState := { s with userBadges := s.userBadges ++ [ub], nextID := s.nextID + 1 }
  if 0 < badge.xpReward then
    awardXP s1 (o.xpCreateOk badge.id) (o.xpUpdateOk badge.id) user.id
      badge.xpReward ("Badge: " ++ badge.name)
  else s1

/-- Loop body of checkAndAwardBadges over the badge catalog.  held is the
existingBadgeTypes map, computed once before the loop and never updated inside
it, exactly as in the Go code. -/
def checkAndAwardBadgesGo (user : User) (o : AwardOracle) (held : List BadgeType) :
    DBState → List Badge → DBState × List UserBadge
  | s, [] => (s, [])
  | s, badge :: rest =>
    if held.contains badge.type then checkAndAwardBadgesGo user o held s rest
    else if badgeShouldAward s user badge.type then
      if o.insertOk badge.id then
        let r := checkAndAwardBadgesGo user o held (awardStep user o s badge) rest
        (r.1, { id := s.nextID, userID := user.id, badgeID := badge.id } :: r.2)
      else checkAndAwardBadgesGo user o held s rest
    else checkAndAwardBadgesGo user o held s rest

/-- checkAndAwardBadges of the gamification handler: reads the catalog and the
user's held badge types, then walks the catalog awarding every qualifying
badge that is not already held, returning the newly created user_badges rows. -/
def checkAndAwardBadges (s : DBState) (user : User) (o : AwardOracle) :
    DBState × List UserBadge :=
  checkAndAwardBadgesGo user o (existingBadgeTypes s user.id) s s.badges

/-- Rule switch of checkAndAwardBadge in the order service: only the three
order-related badge types are handled there. -/
def badgeShouldAwardOrder (s : DBState) (user : User) (t : BadgeType) : Bool :=
  if t = BadgeFirstOrder then decide (1 ≤ countOrdersByBuyer s user.id)
  else if t = BadgeTopSeller then decide (10 ≤ countDeliveredSales s user.id)
  else if t = BadgeBigSpender then decide ((5000 : ℚ) ≤ user.totalSpent)
  else false

/-- checkAndAwardBadge of the order service: loads the user, checks for an
existing award through the user_badges x badges join, loads the badge row by
type, evaluates the rule, inserts the award (insert error discarded) and
awards the badge XP. -/
def checkAndAwardBadge (s : DBState) (userID : String) (badgeType : BadgeType)
    (insOk xpCreateOk xpUpdateOk : Bool) : DBState :=
  match userRec s userID with
  | none => s
  | some user =>
    if s.userBadges.any (fun ub => ub.userID = userID &&
        s.badges.any (fun b => b.id = ub.badgeID && b.type = badgeType)) then s
    else
      match s.badges.find? (fun b => b.type = badgeType) with
      | none => s
      | some badge =>
        if badgeShouldAwardOrder s user badgeType then
          let s1 : DBState :=
            if insOk then
              { s with
                userBadges := s.userBadges ++
                  [{ id := s.nextID, userID := userID, badgeID := badge.id }],
                nextID := s.nextID + 1 }
            else s
          if 0 < badge.xpReward then
            callGamificationService s1 xpCreateOk xpUpdateOk userID badge.xpReward
              ("Badge: " ++ badge.name) ""
          else s1
        else s

/-! ## Leaderboard cache (shared/redis) and database fallback -/

/-- Denormalized display fields stored in the leaderboard side hash. -/
structure UserMeta where
  name : String
  level : UserLevel
  badgeCount : Int
  deriving DecidableEq

/-- One member of a Redis sorted set with its score.  The cache state keeps
the set in ascending (score, member) order, which is the order Redis
maintains. -/
structure ZEntry where
  member : String
  score : ℚ
  deriving DecidableEq

/-- One leaderboard category in the cache: the ranked sorted set plus the
side hash of display metadata. -/
structure RedisCache where
  zset : List ZEntry
  meta : List (String × UserMeta)
  deriving DecidableEq

/-- Leaderboard entry returned to clients.  The Go zero value of the user id
field is uuid.Nil, modelled as "". -/
structure LeaderboardEntry where
  userID : String
  name : String
  score : ℚ
  rank : Nat
  level : UserLevel
  badgeCount : Int
  deriving DecidableEq

/-- Member and score of a ranked-set entry, the data the cache path ranks
on. -/
def zPair (z : ZEntry) : String × ℚ := (z.member, z.score)

/-- Id and spend of a user row, the data the buyer database fallback ranks
on. -/
def uPair (u : User) : String × ℚ := (u.id, u.totalSpent)

/-- The display fields shared by the two leaderboard paths: name, score,
rank and level. -/
def entryDisplay (e : LeaderboardEntry) : String × ℚ × Nat × UserLevel :=
  (e.name, e.score, e.rank, e.level)

/-- The buyer rows (role = buyer). -/
def buyersOf (s : DBState) : List User :=
  s.users.filter (fun u => u.role = RoleBuyer)

/-- The seller rows (role = seller). -/
def sellersOf (s : DBState) : List User :=
  s.users.filter (fun u => u.role = RoleSeller)

/-- ZREVRANGE WITHSCORES over the stored ascending list: indices address the
descending order, a negative index counts from the end (-1 is the last
element), the stop index is clamped to the end, and an empty range yields an
empty list. -/
def zRevRangeWithScores (l : List ZEntry) (start stop : Int) : List ZEntry :=
  let n : Int := l.length
  let start1 : Int := if start < 0 then (if start + n < 0 then 0 else start + n) else start
  let stop1 : Int := if stop < 0 then stop + n else stop
  let stop2 : Int := if n - 1 < stop1 then n - 1 else stop1
  if stop2 < start1 then []
  else ((l.reverse.drop start1.toNat).take (stop2 - start1 + 1).toNat)

/-- Entry-building loop of redis.GetLeaderboard: the loop index over the
returned members supplies the 1-based rank, members whose side-hash lookup
fails are skipped (their index still counts), the user id field of the entry
is never filled in, and name, level and badge count come from the hash. -/
def mkRedisEntries (meta : List (String × UserMeta)) : Nat → List ZEntry → List LeaderboardEntry
  | _, [] => []
  | i, z :: rest =>
    match List.lookup z.member meta with
    | none => mkRedisEntries meta (i + 1) rest
    | some md =>
      { userID := "", name := md.name, score := z.score, rank := i + 1,
        level := md.level, badgeCount := md.badgeCount } :: mkRedisEntries meta (i + 1) rest

/-- redis.GetLeaderboard: ZREVRANGE 0 (limit-1) over the ranked set, then the
entry-building loop. -/
def GetLeaderboard (cache : RedisCache) (limit : Int) : List LeaderboardEntry :=
  mkRedisEntries cache.meta 0 (zRevRangeWithScores cache.zset 0 (limit - 1))

/-- gorm Limit: a negative argument cancels the limit clause, otherwise the
first limit rows are kept (LIMIT 0 keeps none). -/
def gormLimit (limit : Int) (l : List α) : List α :=
  if limit < 0 then l else l.take limit.toNat

/-- Entry-building loop of the database fallback: rank is the 1-based slice
index, and all fields including the user id are filled from the user row
(badge count stays at its zero value). -/
def mkDbEntries : Nat → List User → List LeaderboardEntry
  | _, [] => []
  | i, u :: rest =>
    { userID := u.id, name := u.name, score := u.totalSpent, rank := i + 1,
      level := u.level, badgeCount := 0 } :: mkDbEntries (i + 1) rest

/-- Entry-building loop of the seller-side database fallback: score is the
sales revenue. -/
def mkDbSellerEntries : Nat → List User → List LeaderboardEntry
  | _, [] => []
  | i, u :: rest =>
    { userID := u.id, name := u.name, score := u.totalSales, rank := i + 1,
      level := u.level, badgeCount := 0 } :: mkDbSellerEntries (i + 1) rest

/-- generateBuyerLeaderboardFromDB: buyers ordered by total_spent descending
(stable on ties), limited, then turned into entries.  ORDER BY total_spent
DESC is modelled as a stable descending sort. -/
def generateBuyerLeaderboardFromDB (s : DBState) (limit : Int) : List LeaderboardEntry :=
  mkDbEntries 0 (gormLimit limit
    (List.insertionSort (fun a b : User => b.totalSpent ≤ a.totalSpent) (buyersOf s)))

/-- generateSellerLeaderboardFromDB: sellers ordered by total_sales
descending, limited, then turned into entries. -/
def generateSellerLeaderboardFromDB (s : DBState) (limit : Int) : List LeaderboardEntry :=
  mkDbSellerEntries 0 (gormLimit limit
    (List.insertionSort (fun a b : User => b.totalSales ≤ a.totalSales) (sellersOf s)))

/-- GetBuyerLeaderboard handler: the requested limit is clamped to 50 from
above only, the cache is asked first, and the database fallback is used when
the cache call errors (redisOk = false). -/
def GetBuyerLeaderboard (s : DBState) (cache : RedisCache) (redisOk : Bool)
    (requested : Int) : List LeaderboardEntry :=
  let limit : Int := if 50 < requested then 50 else requested
  if redisOk then GetLeaderboard cache limit
  else generateBuyerLeaderboardFromDB s limit

/-! ## Order status updates and delivered-order rewards (order service) -/

/-- Go int(f) conversion on a float amount: truncation toward zero. -/
def goTrunc (q : ℚ) : Int :=
  if 0 ≤ q then q.floor else q.ceil

/-- Valid target statuses accepted by UpdateOrderStatus. -/
def validStatuses : List OrderStatus :=
  [OrderPending, OrderConfirmed, OrderProcessing, OrderShipped, OrderDelivered, OrderCancelled]

/-- DB.Save(&order): replace the order row by id. -/
def saveOrder (s : DBState) (o : Order) : DBState :=
  { s with orders := s.orders.map (fun x => if x.id = o.id then o else x) }

/-- Per-item body of processDeliveredOrder: add the sale amount to the
seller's total_sales and award the seller 10 XP per 100 currency units of the
sale (reference: the order id). -/
def deliveredItemStep (orderID : String) (st : DBState) (item : OrderItem) : DBState :=
  let saleAmount : ℚ := item.price * (item.quantity : ℚ)
  let st1 := incTotalSales st item.sellerID saleAmount
  let xpAmount : Int := goTrunc (saleAmount / 100 * 10)
  if 0 < xpAmount then
    callGamificationService st1 true true item.sellerID xpAmount "Product Sale" orderID
  else st1

/-- Per-item TopSeller badge check at the end of processDeliveredOrder. -/
def topSellerCheckStep (st : DBState) (item : OrderItem) : DBState :=
  checkAndAwardBadge st item.sellerID BadgeTopSeller true true true

/-- processDeliveredOrder: per item, add the sale amount to the seller's
total_sales and award 10 XP per 100 currency units of the sale; then award
the buyer 5 XP per 100 currency units of the order total, and run the badge
checks.  All these writes have their errors discarded in Go, so their
outcomes are taken as successful here. -/
def processDeliveredOrder (s : DBState) (order : Order) : DBState :=
  let s1 := order.items.foldl (deliveredItemStep order.id) s
  let buyerXP : Int := goTrunc (order.totalAmount / 100 * 5)
  let s2 :=
    if 0 < buyerXP then
      callGamificationService s1 true true order.buyerID buyerXP "Order Completed" order.id
    else s1
  let s3 := checkAndAwardBadge s2 order.buyerID BadgeBigSpender true true true
  order.items.foldl topSellerCheckStep s3

/-- Request body of PUT /orders/:id/status. -/
structure UpdateStatusReq where
  status : OrderStatus
  notes : String
  deriving DecidableEq

/-- UpdateOrderStatus handler: validates the target status against the fixed
list, loads the order, requires the caller to be a seller of some item of the
order, saves the new status (and notes when non-empty), and when the target
status is delivered runs the delivered-order reward processing.  The current
status of the order is never consulted.  The reward processing is dispatched
on a goroutine in Go and modelled synchronously; the save is taken as
succeeding. -/
def UpdateOrderStatus (s : DBState) (orderID userID : String) (userRole : UserRole)
    (req : UpdateStatusReq) : DBState × Except GoErr Order :=
  if (validStatuses.contains req.status) = false then
    (s, .error (.validationError "Invalid order status"))
  else
    match s.orders.find? (fun o => o.id = orderID) with
    | none => (s, .error (.notFound "Order not found"))
    | some order =>
      if userRole = RoleSeller then
        if order.items.any (fun it => it.sellerID = userID) then
          let order1 : Order :=
            { order with status := req.status,
                         notes := if req.notes ≠ "" then req.notes else order.notes }
          let s1 := saveOrder s order1
          let s2 := if req.status = OrderDelivered then processDeliveredOrder s1 order1 else s1
          (s2, .ok order1)
        else (s, .error (.forbidden "You can only update orders for your products"))
      else (s, .error (.forbidden "Only sellers can update order status"))

/-! ## Concrete fixtures used by witnesses and counterexamples -/

/-- A buyer at 490 XP whose stored level is consistent with the balance. -/
def exUser : User :=
  { id := "u1", name := "Abe", role := RoleBuyer, level := LevelBronze,
    totalXP := 490, totalSpent := 100, totalSales := 0 }

/-- A store holding exUser and a ledger that sums to the 490 XP counter. -/
def exState : DBState :=
  { users := [exUser],
    xpTransactions := [{ id := 0, userID := "u1", amount := 490, reason := "seed", reference := "" }],
    badges := [], userBadges := [], orders := [], nextID := 1 }

/-- Consistency of the materialized XP counter with the ledger sum for one
user. -/
abbrev ledgerConsistent (s : DBState) (uid : String) : Prop :=
  sumXPFor s uid = userTotalXP s uid

/-- The AddXP request of the 490 + 20 scenario from the spec. -/
def req20 : AddXPRequest :=
  { userID := "u1", amount := 20, reason := "Order Completed", reference := "" }

/-- State after an AddXP whose ledger insert landed but whose counter update
failed: the handler surfaced an error, yet the transaction row remains. -/
def divergedState : DBState := (AddXP exState req20 true false true).1

/-- A subsequent fully successful awardXP on top of the diverged state. -/
def divergedState2 : DBState := awardXP divergedState true true "u1" 5 "Badge: First Order"

/-- Badge catalog fixture: the FirstOrder badge worth 50 XP. -/
def badgeFirst : Badge :=
  { id := "b1", type := BadgeFirstOrder, name := "First Order", xpReward := 50 }

/-- An order placed by exUser, making them qualify for FirstOrder. -/
def exOrder : Order :=
  { id := "o1", buyerID := "u1", totalAmount := 100, status := OrderPending, notes := "",
    items := [{ productID := "p1", sellerID := "s9", quantity := 1, price := 100 }] }

/-- Store in which exUser qualifies for the FirstOrder badge and holds none. -/
def badgeState : DBState :=
  { users := [exUser], xpTransactions := [], badges := [badgeFirst],
    userBadges := [], orders := [exOrder], nextID := 5 }

/-- A seller fixture. -/
def sellerUser : User :=
  { id := "s1", name := "Sel", role := RoleSeller, level := LevelBronze,
    totalXP := 0, totalSpent := 0, totalSales := 0 }

/-- An order already in delivered status, one item of 2 x 100 sold by
sellerUser. -/
def deliveredOrder : Order :=
  { id := "o2", buyerID := "u1", totalAmount := 200, status := OrderDelivered, notes := "",
    items := [{ productID := "p2", sellerID := "s1", quantity := 2, price := 100 }] }

/-- Store holding the delivered order, its buyer and its seller. -/
def deliveredState : DBState :=
  { users := [exUser, sellerUser], xpTransactions := [], badges := [],
    userBadges := [], orders := [deliveredOrder], nextID := 10 }

/-- A ranked cache with 51 members (scores 0..50 ascending) all carrying side
metadata. -/
def bigCache : RedisCache :=
  { zset := (List.range 51).map (fun i => { member := toString i, score := (i : ℚ) }),
    meta := (List.range 51).map
      (fun i => (toString i, { name := "user", level := LevelBronze, badgeCount := 0 })) }

/-- A buyer fixture for the leaderboard parity comparison. -/
def parityUser : User :=
  { id := "u1", name := "Abe", role := RoleBuyer, level := LevelBronze,
    totalXP := 0, totalSpent := 100, totalSales := 0 }

/-- Second buyer fixture with a higher spend. -/
def parityUserB : User :=
  { id := "u2", name := "Bea", role := RoleBuyer, level := LevelSilver,
    totalXP := 600, totalSpent := 300, totalSales := 0 }

/-- Store holding exactly the one buyer. -/
def parityState : DBState :=
  { users := [parityUser], xpTransactions := [], badges := [], userBadges := [],
    orders := [], nextID := 0 }

/-- Cache perfectly synchronized with parityState. -/
def parityCache : RedisCache :=
  { zset := [{ member := "u1", score := 100 }],
    meta := [("u1", { name := "Abe", level := LevelBronze, badgeCount := 0 })] }

/-- Store holding the two buyers. -/
def parityState2 : DBState :=
  { users := [parityUser, parityUserB], xpTransactions := [], badges := [],
    userBadges := [], orders := [], nextID := 0 }

/-- Cache perfectly synchronized with parityState2, ascending by score. -/
def parityCache2 : RedisCache :=
  { zset := [{ member := "u1", score := 100 }, { member := "u2", score := 300 }],
    meta := [("u1", { name := "Abe", level := LevelBronze, badgeCount := 0 }),
             ("u2", { name := "Bea", level := LevelSilver, badgeCount := 0 })] }

/-! ## Store helper lemmas -/

/-- find? over a row map that does not change ids commutes with the map. -/
theorem find?_users_map (l : List User) (uid : String) (g : User → User)
    (hg : ∀ u, (g u).id = u.id) :
    (l.map g).find? (fun u => u.id = uid) = (l.find? (fun u => u.id = uid)).map g := by
  induction l with
  | nil => rfl
  | cons a l ih =>
    by_cases h : a.id = uid
    · simp [List.find?_cons, hg, h]
    · simp [List.find?_cons, hg, h, ih]

/-- userRec after an XP-counter increment. -/
theorem userRec_incUserTotalXP (s : DBState) (uid0 : String) (amt : Int) (uid : String) :
    userRec (incUserTotalXP s uid0 amt) uid =
      (userRec s uid).map
        (fun u => if u.id = uid0 then { u with totalXP := u.totalXP + amt } else u) := by
  unfold userRec incUserTotalXP
  exact find?_users_map _ _ _ (fun u => by by_cases h : u.id = uid0 <;> simp [h])

/-- userRec after an absolute XP-counter write. -/
theorem userRec_setUserTotalXP (s : DBState) (uid0 : String) (x : Int) (uid : String) :
    userRec (setUserTotalXP s uid0 x) uid =
      (userRec s uid).map (fun u => if u.id = uid0 then { u with totalXP := x } else u) := by
  unfold userRec setUserTotalXP
  exact find?_users_map _ _ _ (fun u => by by_cases h : u.id = uid0 <;> simp [h])

/-- userRec after a level write. -/
theorem userRec_setUserLevel (s : DBState) (uid0 : String) (lv : UserLevel) (uid : String) :
    userRec (setUserLevel s uid0 lv) uid =
      (userRec s uid).map (fun u => if u.id = uid0 then { u with level := lv } else u) := by
  unfold userRec setUserLevel
  exact find?_users_map _ _ _ (fun u => by by_cases h : u.id = uid0 <;> simp [h])

/-- userRec after a total_sales increment. -/
theorem userRec_incTotalSales (s : DBState) (uid0 : String) (amt : ℚ) (uid : String) :
    userRec (incTotalSales s uid0 amt) uid =
      (userRec s uid).map
        (fun u => if u.id = uid0 then { u with totalSales := u.totalSales + amt } else u) := by
  unfold userRec incTotalSales
  exact find?_users_map _ _ _ (fun u => by by_cases h : u.id = uid0 <;> simp [h])

/-- A row found by userRec carries the looked-up id. -/
theorem userRec_id (s : DBState) (uid : String) (u : User)
    (h : userRec s uid = some u) : u.id = uid := by
  have := List.find?_some h
  simpa using this

/-- The ledger sum after appending one transaction (with an id-counter bump). -/
theorem sumXPFor_append (s : DBState) (tx : XPTransaction) (n : Nat) (uid : String) :
    sumXPFor { s with xpTransactions := s.xpTransactions ++ [tx], nextID := n } uid =
      sumXPFor s uid + (if tx.userID = uid then tx.amount else 0) := by
  unfold sumXPFor
  by_cases hm : tx.userID = uid <;>
    simp [List.filter_append, hm]


/-- The level projection of a user row is untouched by the XP increment. -/
theorem userLevelOf_incUserTotalXP (s : DBState) (uid0 : String) (amt : Int) (uid : String) :
    userLevelOf (incUserTotalXP s uid0 amt) uid = userLevelOf s uid := by
  unfold userLevelOf
  rw [userRec_incUserTotalXP]
  cases h : userRec s uid with
  | none => rfl
  | some u => by_cases hu : u.id = uid0 <;> simp [hu]

/-- The XP counter of an existing row after the storage-level increment. -/
theorem userTotalXP_incUserTotalXP (s : DBState) (uid : String) (amt : Int) (u : User)
    (h : userRec s uid = some u) :
    userTotalXP (incUserTotalXP s uid amt) uid = userTotalXP s uid + amt := by
  unfold userTotalXP
  rw [userRec_incUserTotalXP, h]
  simp [userRec_id s uid u h]

/-- The XP counter of another user is untouched by the increment. -/
theorem userTotalXP_incUserTotalXP_ne (s : DBState) (uid0 uid : String) (amt : Int)
    (h : uid ≠ uid0) :
    userTotalXP (incUserTotalXP s uid0 amt) uid = userTotalXP s uid := by
  unfold userTotalXP
  rw [userRec_incUserTotalXP]
  cases hr : userRec s uid with
  | none => rfl
  | some u =>
    have : u.id = uid := userRec_id s uid u hr
    simp [this, h]

/-- The XP counter is untouched by appending a ledger row or bumping the id
counter. -/
theorem userTotalXP_txs (s : DBState) (l : List XPTransaction) (n : Nat) (uid : String) :
    userTotalXP { s with xpTransactions := l, nextID := n } uid = userTotalXP s uid := rfl

/-- AddXP on the all-success path, fully evaluated. -/
theorem AddXP_ok (s : DBState) (req : AddXPRequest) (u : User) (levelOk : Bool)
    (huid : req.userID ≠ "") (hamt : req.amount ≠ 0) (hreason : req.reason ≠ "")
    (hfind : userRec s req.userID = some u) :
    AddXP s req true true levelOk =
      (let s1 : DBState :=
        { s with
          xpTransactions := s.xpTransactions ++
            [{ id := s.nextID, userID := req.userID, amount := req.amount,
               reason := req.reason, reference := req.reference }],
          nextID := s.nextID + 1 }
       let s2 := setUserTotalXP s1 req.userID (u.totalXP + req.amount)
       let lvUp : Bool :=
         decide (calculateLevel (u.totalXP + req.amount) ≠ calculateLevel u.totalXP)
       ((if lvUp && levelOk then
           setUserLevel s2 req.userID (calculateLevel (u.totalXP + req.amount))
         else s2),
        .ok { userID := req.userID, oldXP := u.totalXP, newXP := u.totalXP + req.amount,
              xpGained := req.amount, oldLevel := calculateLevel u.totalXP,
              newLevel := calculateLevel (u.totalXP + req.amount), leveledUp := lvUp })) := by
  unfold AddXP
  rw [if_neg (by simp [huid, hamt, hreason]), hfind]
  rfl

/-- C5: for every non-negative XP balance the code's calculateLevel agrees
with the reference threshold function with inclusive lower bounds (so 500 is
Silver), and calculateLevel is monotonically non-decreasing. -/
theorem C5_calculateLevel_thresholds :
    (∀ xp : Int, 0 ≤ xp → calculateLevel xp = levelSpec xp) ∧
    calculateLevel 500 = LevelSilver ∧
    (∀ x y : Int, 0 ≤ x → x ≤ y →
      levelRank (calculateLevel x) ≤ levelRank (calculateLevel y)) := by
  refine ⟨?_, by decide, ?_⟩
  · intro xp h
    unfold calculateLevel levelSpec
    split_ifs <;> first | rfl | omega
  · intro x y hx hxy
    unfold calculateLevel
    split_ifs <;> first | decide | omega

/-- C5 witness: the 500 boundary is Silver under both functions, and the rank
is non-decreasing across the 490 to 510 step. -/
theorem C5_calculateLevel_thresholds_witness :
    calculateLevel 500 = levelSpec 500 ∧
    levelRank (calculateLevel 490) ≤ levelRank (calculateLevel 510) :=
  ⟨C5_calculateLevel_thresholds.1 500 (by decide),
   C5_calculateLevel_thresholds.2.2 490 510 (by decide) (by decide)⟩

/-- C3: on the success path, AddXP for an existing user with a non-zero
amount and non-empty reason returns old and new XP related by the amount, the
gained amount itself, levels computed by calculateLevel from the old and new
balances, and a leveled-up flag that is true exactly when those two levels
differ. -/
theorem C3_addXP_result (s : DBState) (req : AddXPRequest) (u : User) (levelOk : Bool)
    (huid : req.userID ≠ "") (hamt : req.amount ≠ 0) (hreason : req.reason ≠ "")
    (hfind : userRec s req.userID = some u) :
    ∃ r, (AddXP s req true true levelOk).2 = .ok r ∧
      r.oldXP = u.totalXP ∧
      r.newXP = u.totalXP + req.amount ∧
      r.xpGained = req.amount ∧
      r.oldLevel = calculateLevel u.totalXP ∧
      r.newLevel = calculateLevel (u.totalXP + req.amount) ∧
      (r.leveledUp = true ↔ r.newLevel ≠ r.oldLevel) := by
  rw [AddXP_ok s req u levelOk huid hamt hreason hfind]
  exact ⟨_, rfl, rfl, rfl, rfl, rfl, rfl, by simp⟩

/-- C3 witness: the spec scenario, a user at 490 XP receiving +20 XP, yields
new XP 510, a Bronze-to-Silver change and leveledUp = true. -/
theorem C3_addXP_result_witness :
    (∃ r, (AddXP exState { userID := "u1", amount := 20, reason := "Order Completed", reference := "" } true true true).2 = .ok r ∧
      r.oldXP = exUser.totalXP ∧
      r.newXP = exUser.totalXP + 20 ∧
      r.xpGained = 20 ∧
      r.oldLevel = calculateLevel exUser.totalXP ∧
      r.newLevel = calculateLevel (exUser.totalXP + 20) ∧
      (r.leveledUp = true ↔ r.newLevel ≠ r.oldLevel)) ∧
    (AddXP exState { userID := "u1", amount := 20, reason := "Order Completed", reference := "" } true true true).2 =
      .ok { userID := "u1", oldXP := 490, newXP := 510, xpGained := 20,
            oldLevel := LevelBronze, newLevel := LevelSilver, leveledUp := true } :=
  ⟨C3_addXP_result exState _ exUser true (by decide) (by decide) (by decide) (by decide),
   by rfl⟩

/-- userRec only looks at the user rows, so ledger appends and id-counter
bumps leave it unchanged. -/
theorem userRec_txs (s : DBState) (l : List XPTransaction) (n : Nat) (uid : String) :
    userRec { s with xpTransactions := l, nextID := n } uid = userRec s uid := rfl

/-- The stored level is untouched by writes that only append transactions and
bump the id counter. -/
theorem userLevelOf_txs (s : DBState) (l : List XPTransaction) (n : Nat) (uid : String) :
    userLevelOf { s with xpTransactions := l, nextID := n } uid = userLevelOf s uid := rfl

/-- C2 corrected: the direct AddXP path keeps the stored level equal to
calculateLevel of the balance for the affected user, but awardXP (the badge
XP path) and callGamificationService (the order reward path) never write the
level field at all while they change the XP balance, so those operations do
not re-establish the invariant (the counterexample shows it breaking). -/
theorem C2_level_writers :
    (∀ (s : DBState) (req : AddXPRequest) (u : User),
      req.userID ≠ "" → req.amount ≠ 0 → req.reason ≠ "" →
      userRec s req.userID = some u →
      u.level = calculateLevel u.totalXP →
      ∀ u2, userRec (AddXP s req true true true).1 req.userID = some u2 →
        u2.level = calculateLevel u2.totalXP) ∧
    (∀ (s : DBState) (c k : Bool) (uid0 : String) (amt : Int) (r : String) (uid : String),
      userLevelOf (awardXP s c k uid0 amt r) uid = userLevelOf s uid) ∧
    (∀ (s : DBState) (c k : Bool) (uid0 : String) (amt : Int) (r rf : String) (uid : String),
      userLevelOf (callGamificationService s c k uid0 amt r rf) uid = userLevelOf s uid) := by
  refine ⟨?_, ?_, ?_⟩
  · intro s req u huid hamt hreason hfind hcons u2 h2
    rw [AddXP_ok s req u true huid hamt hreason hfind] at h2
    have hid : u.id = req.userID := userRec_id s req.userID u hfind
    by_cases hl : calculateLevel (u.totalXP + req.amount) = calculateLevel u.totalXP
    · simp only [hl, ne_eq, eq_self_iff_true, not_true] at h2
      rw [if_neg (by decide)] at h2
      rw [userRec_setUserTotalXP, userRec_txs, hfind] at h2
      simp [hid] at h2
      subst h2
      simpa using hcons.trans hl.symm
    · simp only [hl, ne_eq, not_false_eq_true] at h2
      rw [if_pos (by decide)] at h2
      rw [userRec_setUserLevel, userRec_setUserTotalXP, userRec_txs, hfind] at h2
      simp [hid] at h2
      subst h2
      rfl
  · intro s c k uid0 amt r uid
    unfold awardXP
    cases c <;> cases k <;>
      simp [userLevelOf_incUserTotalXP, userLevelOf_txs]
  · intro s c k uid0 amt r rf uid
    unfold callGamificationService
    cases c <;> cases k <;>
      simp [userLevelOf_incUserTotalXP, userLevelOf_txs]

/-- C2 counterexample: a user consistent at 490 XP Bronze receives 50 badge
XP through awardXP; the balance becomes 540, whose level is Silver, but the
stored level is still Bronze, so an operation set the XP balance without
making the stored level equal calculateLevel of the new balance. -/
theorem C2_counterexample :
    userLevelOf (awardXP exState true true "u1" 50 "Badge: First Order") "u1" = some LevelBronze ∧
    calculateLevel (userTotalXP (awardXP exState true true "u1" 50 "Badge: First Order") "u1") = LevelSilver ∧
    (LevelBronze : UserLevel) ≠ LevelSilver := by decide

/-- C2 witness: the user row produced by the scenario AddXP call satisfies
the invariant. -/
theorem C2_level_writers_witness :
    ({ exUser with totalXP := 510, level := LevelSilver } : User).level =
      calculateLevel ({ exUser with totalXP := 510, level := LevelSilver } : User).totalXP :=
  C2_level_writers.1 exState req20 exUser (by decide) (by decide) (by decide) (by decide)
    (by decide) { exUser with totalXP := 510, level := LevelSilver } (by decide)

/-- The ledger sum ignores user-row writes. -/
theorem sumXPFor_setUserTotalXP (s : DBState) (uid0 : String) (x : Int) (uid : String) :
    sumXPFor (setUserTotalXP s uid0 x) uid = sumXPFor s uid := rfl

/-- The ledger sum ignores level writes. -/
theorem sumXPFor_setUserLevel (s : DBState) (uid0 : String) (lv : UserLevel) (uid : String) :
    sumXPFor (setUserLevel s uid0 lv) uid = sumXPFor s uid := rfl

/-- The ledger sum ignores counter increments. -/
theorem sumXPFor_incUserTotalXP (s : DBState) (uid0 : String) (amt : Int) (uid : String) :
    sumXPFor (incUserTotalXP s uid0 amt) uid = sumXPFor s uid := rfl

/-- The XP counter ignores level writes. -/
theorem userTotalXP_setUserLevel (s : DBState) (uid0 : String) (lv : UserLevel) (uid : String) :
    userTotalXP (setUserLevel s uid0 lv) uid = userTotalXP s uid := by
  unfold userTotalXP
  rw [userRec_setUserLevel]
  cases h : userRec s uid with
  | none => rfl
  | some u => by_cases hu : u.id = uid0 <;> simp [hu]

/-- The absolute counter write lands on an existing row. -/
theorem userTotalXP_setUserTotalXP (s : DBState) (uid : String) (x : Int) (u : User)
    (h : userRec s uid = some u) :
    userTotalXP (setUserTotalXP s uid x) uid = x := by
  unfold userTotalXP
  rw [userRec_setUserTotalXP, h]
  simp [userRec_id s uid u h]

/-- The absolute counter write leaves other users untouched. -/
theorem userTotalXP_setUserTotalXP_ne (s : DBState) (uid0 uid : String) (x : Int)
    (h : uid ≠ uid0) :
    userTotalXP (setUserTotalXP s uid0 x) uid = userTotalXP s uid := by
  unfold userTotalXP
  rw [userRec_setUserTotalXP]
  cases hr : userRec s uid with
  | none => rfl
  | some u =>
    have : u.id = uid := userRec_id s uid u hr
    simp [this, h]

/-- awardXP with both writes landing, written as increment after append. -/
theorem awardXP_ok_eq (s : DBState) (uid0 : String) (amt : Int) (r : String) :
    awardXP s true true uid0 amt r =
      incUserTotalXP
        { s with
          xpTransactions := s.xpTransactions ++
            [{ id := s.nextID, userID := uid0, amount := amt, reason := r, reference := "" }],
          nextID := s.nextID + 1 } uid0 amt := rfl

/-- callGamificationService with both writes landing, written as increment
after append. -/
theorem callGamificationService_ok_eq (s : DBState) (uid0 : String) (amt : Int) (r rf : String) :
    callGamificationService s true true uid0 amt r rf =
      incUserTotalXP
        { s with
          xpTransactions := s.xpTransactions ++
            [{ id := s.nextID, userID := uid0, amount := amt, reason := r, reference := rf }],
          nextID := s.nextID + 1 } uid0 amt := rfl

/-- C4 corrected: on the path where both the ledger insert and the counter
update land, AddXP, awardXP and callGamificationService all preserve the
agreement between the materialized total_xp counter and the ledger sum, for
every user.  The two writes are nonetheless independent statements, and the
counterexample shows them diverging as soon as exactly one of them fails. -/
theorem C4_counter_ledger :
    (∀ (s : DBState) (req : AddXPRequest) (u : User) (uid : String) (levelOk : Bool),
      req.userID ≠ "" → req.amount ≠ 0 → req.reason ≠ "" →
      userRec s req.userID = some u →
      ledgerConsistent s uid →
      ledgerConsistent (AddXP s req true true levelOk).1 uid) ∧
    (∀ (s : DBState) (uid0 : String) (amt : Int) (r : String) (uid : String),
      (userRec s uid0).isSome = true →
      ledgerConsistent s uid →
      ledgerConsistent (awardXP s true true uid0 amt r) uid) ∧
    (∀ (s : DBState) (uid0 : String) (amt : Int) (r rf : String) (uid : String),
      (userRec s uid0).isSome = true →
      ledgerConsistent s uid →
      ledgerConsistent (callGamificationService s true true uid0 amt r rf) uid) := by
  refine ⟨?_, ?_, ?_⟩
  · intro s req u uid levelOk huid hamt hreason hfind hcons
    rw [AddXP_ok s req u levelOk huid hamt hreason hfind]
    unfold ledgerConsistent at hcons ⊢
    dsimp only
    split_ifs with hb
    · rw [sumXPFor_setUserLevel, sumXPFor_setUserTotalXP, sumXPFor_append,
        userTotalXP_setUserLevel]
      by_cases heq : uid = req.userID
      · subst heq
        rw [userTotalXP_setUserTotalXP _ _ _ u (by rw [userRec_txs]; exact hfind)]
        have hx : userTotalXP s req.userID = u.totalXP := by
          unfold userTotalXP
          rw [hfind]
          rfl
        simp [hcons, hx]
      · rw [userTotalXP_setUserTotalXP_ne _ _ _ _ heq, userTotalXP_txs]
        rw [if_neg (fun hh => heq hh.symm)]
        simpa using hcons
    · rw [sumXPFor_setUserTotalXP, sumXPFor_append]
      by_cases heq : uid = req.userID
      · subst heq
        rw [userTotalXP_setUserTotalXP _ _ _ u (by rw [userRec_txs]; exact hfind)]
        have hx : userTotalXP s req.userID = u.totalXP := by
          unfold userTotalXP
          rw [hfind]
          rfl
        simp [hcons, hx]
      · rw [userTotalXP_setUserTotalXP_ne _ _ _ _ heq, userTotalXP_txs]
        rw [if_neg (fun hh => heq hh.symm)]
        simpa using hcons
  · intro s uid0 amt r uid hex hcons
    obtain ⟨u0, hu0⟩ := Option.isSome_iff_exists.mp hex
    rw [awardXP_ok_eq]
    unfold ledgerConsistent at hcons ⊢
    rw [sumXPFor_incUserTotalXP, sumXPFor_append]
    by_cases heq : uid = uid0
    · subst heq
      rw [userTotalXP_incUserTotalXP _ _ _ u0 (by rw [userRec_txs]; exact hu0),
        userTotalXP_txs]
      simp [hcons]
    · rw [userTotalXP_incUserTotalXP_ne _ _ _ _ heq, userTotalXP_txs]
      rw [if_neg (fun hh => heq hh.symm)]
      simpa using hcons
  · intro s uid0 amt r rf uid hex hcons
    obtain ⟨u0, hu0⟩ := Option.isSome_iff_exists.mp hex
    rw [callGamificationService_ok_eq]
    unfold ledgerConsistent at hcons ⊢
    rw [sumXPFor_incUserTotalXP, sumXPFor_append]
    by_cases heq : uid = uid0
    · subst heq
      rw [userTotalXP_incUserTotalXP _ _ _ u0 (by rw [userRec_txs]; exact hu0),
        userTotalXP_txs]
      simp [hcons]
    · rw [userTotalXP_incUserTotalXP_ne _ _ _ _ heq, userTotalXP_txs]
      rw [if_neg (fun hh => heq hh.symm)]
      simpa using hcons

/-- C4 counterexample: starting from a consistent user, an AddXP whose ledger
insert lands but whose counter update fails leaves the ledger sum (510) ahead
of the counter (490); a later fully successful awardXP keeps the divergence
(515 against 495), so after a successful operation counter and ledger sum
still disagree. -/
theorem C4_counterexample :
    ledgerConsistent exState "u1" ∧
    ¬ ledgerConsistent divergedState "u1" ∧
    ¬ ledgerConsistent divergedState2 "u1" := by decide

/-- C4 witness: the all-success paths preserve the consistency of the fixture
user. -/
theorem C4_counter_ledger_witness :
    ledgerConsistent (AddXP exState req20 true true true).1 "u1" ∧
    ledgerConsistent (awardXP exState true true "u1" 50 "Badge: First Order") "u1" :=
  ⟨C4_counter_ledger.1 exState req20 exUser "u1" true (by decide) (by decide) (by decide)
      (by decide) (by decide),
   C4_counter_ledger.2.1 exState "u1" 50 "Badge: First Order" "u1" (by decide) (by decide)⟩

/-- C8 corrected: only the direct AddXP handler surfaces a failed ledger
append (an internal error, with no row written); awardXP and
callGamificationService return no error channel at all, and when their
ledger insert fails they simply proceed, leaving the transaction list
unchanged, so the intended reward's ledger entry is silently lost. -/
theorem C8_ledger_failures :
    (∀ (s : DBState) (req : AddXPRequest) (u : User) (updateOk levelOk : Bool),
      req.userID ≠ "" → req.amount ≠ 0 → req.reason ≠ "" →
      userRec s req.userID = some u →
      (AddXP s req false updateOk levelOk).2 =
        .error (.internalError "Failed to create XP transaction") ∧
      (AddXP s req false updateOk levelOk).1 = s) ∧
    (∀ (s : DBState) (k : Bool) (uid0 : String) (amt : Int) (r : String),
      (awardXP s false k uid0 amt r).xpTransactions = s.xpTransactions) ∧
    (∀ (s : DBState) (k : Bool) (uid0 : String) (amt : Int) (r rf : String),
      (callGamificationService s false k uid0 amt r rf).xpTransactions = s.xpTransactions) := by
  refine ⟨?_, ?_, ?_⟩
  · intro s req u updateOk levelOk huid hamt hreason hfind
    unfold AddXP
    rw [if_neg (by simp [huid, hamt, hreason]), hfind]
    exact ⟨rfl, rfl⟩
  · intro s k uid0 amt r
    unfold awardXP
    cases k <;> rfl
  · intro s k uid0 amt r rf
    unfold callGamificationService
    cases k <;> rfl

/-- C8 counterexample: a failing ledger append inside awardXP records no
transaction, yet the call completes with no error surfaced anywhere (awardXP
has no error result in the Go code) and the counter even advances, so the
intended reward's ledger entry is dropped silently. -/
theorem C8_counterexample :
    (awardXP exState false true "u1" 25 "Badge: First Order").xpTransactions =
      exState.xpTransactions ∧
    userTotalXP (awardXP exState false true "u1" 25 "Badge: First Order") "u1" = 515 := by
  decide

/-- C8 witness: the direct AddXP path really does surface the failed append
as an internal error and writes nothing. -/
theorem C8_ledger_failures_witness :
    (AddXP exState req20 false true true).2 =
      .error (.internalError "Failed to create XP transaction") ∧
    (AddXP exState req20 false true true).1 = exState :=
  C8_ledger_failures.1 exState req20 exUser true true (by decide) (by decide) (by decide)
    (by decide)

/-- ZREVRANGE from index 0 with a positive limit is a take of the descending
order. -/
theorem zRevRange_limit (l : List ZEntry) (limit : Int) (h : 1 ≤ limit) :
    zRevRangeWithScores l 0 (limit - 1) = l.reverse.take limit.toNat := by
  unfold zRevRangeWithScores
  dsimp only
  split_ifs with h1 h2 h3 h4 h5 h6 <;> try omega
  · have : l = [] := List.length_eq_zero.mp (by omega)
    subst this
    simp
  · rw [Int.toNat_zero, List.drop_zero]
    have hlen : ((l.length : Int) - 1 - 0 + 1).toNat = l.reverse.length := by
      simp only [List.length_reverse]
      omega
    rw [hlen, List.take_length, List.take_of_length_le (by simp; omega)]
  · rw [Int.toNat_zero, List.drop_zero, show limit - 1 - 0 + 1 = limit from by omega]

/-- The redis entry loop returns at most one entry per member. -/
theorem mkRedisEntries_length_le (meta : List (String × UserMeta)) :
    ∀ (i : Nat) (zs : List ZEntry), (mkRedisEntries meta i zs).length ≤ zs.length := by
  intro i zs
  induction zs generalizing i with
  | nil => simp [mkRedisEntries]
  | cons z rest ih =>
    unfold mkRedisEntries
    cases List.lookup z.member meta with
    | none => exact Nat.le_succ_of_le (ih (i + 1))
    | some md => simpa using ih (i + 1)

/-- The database entry loop returns one entry per user row. -/
theorem mkDbEntries_length : ∀ (i : Nat) (us : List User),
    (mkDbEntries i us).length = us.length := by
  intro i us
  induction us generalizing i with
  | nil => rfl
  | cons u rest ih => simpa [mkDbEntries] using ih (i + 1)

/-- C6 corrected: for every requested limit of at least 1, both the cache
path and the database fallback of the buyer leaderboard return at most 50
entries, the clamp only lowering values above 50.  The clamp has no lower
bound, so a requested limit of 0 or less reaches Redis unchanged, where the
stop index limit-1 counts from the end of the set and the whole ranked set
comes back (the counterexample returns 51 entries). -/
theorem C6_leaderboard_cap (s : DBState) (cache : RedisCache) (redisOk : Bool)
    (requested : Int) (h : 1 ≤ requested) :
    (GetBuyerLeaderboard s cache redisOk requested).length ≤ 50 := by
  unfold GetBuyerLeaderboard
  dsimp only
  have h1 : 1 ≤ (if 50 < requested then 50 else requested) := by split_ifs <;> omega
  have h50 : (if 50 < requested then (50:Int) else requested).toNat ≤ 50 := by
    split_ifs <;> omega
  cases redisOk with
  | false =>
    simp only [Bool.false_eq_true, if_neg, ite_false]
    unfold generateBuyerLeaderboardFromDB gormLimit
    rw [if_neg (by omega), mkDbEntries_length]
    calc (List.take _ _).length ≤ _ := by rw [List.length_take]; exact Nat.min_le_left _ _
      _ ≤ 50 := h50
  | true =>
    simp only [ite_true]
    unfold GetLeaderboard
    rw [zRevRange_limit _ _ h1]
    calc (mkRedisEntries _ _ _).length ≤ _ := mkRedisEntries_length_le _ _ _
      _ ≤ 50 := by rw [List.length_take]; exact le_trans (Nat.min_le_left _ _) h50

/-- C6 counterexample: a requested limit of 0 is not clamped from below; the
cache path turns it into ZREVRANGE 0 -1, which returns the entire 51-member
ranked set, so the query yields more than 50 entries. -/
theorem C6_counterexample :
    ¬ ((GetBuyerLeaderboard parityState bigCache true 0).length ≤ 50) := by decide

/-- C6 witness: the spec scenario, requesting 500 entries returns at most
50. -/
theorem C6_leaderboard_cap_witness :
    (GetBuyerLeaderboard parityState bigCache true 500).length ≤ 50 :=
  C6_leaderboard_cap parityState bigCache true 500 (by decide)

/-- Two lists that are permutations of each other and both strictly sorted
descending on the same key are equal. -/
theorem perm_sorted_desc_eq {α : Type} (k : α → ℚ) (l1 l2 : List α) (hp : l1.Perm l2)
    (h1 : l1.Pairwise (fun a b => k b < k a)) (h2 : l2.Pairwise (fun a b => k b < k a)) :
    l1 = l2 := by
  haveI : IsAntisymm α (fun a b => k b < k a) :=
    ⟨fun a b hab hba => absurd (lt_trans hab hba) (lt_irrefl _)⟩
  exact List.eq_of_perm_of_sorted hp h1 h2

/-- When two member lists carry the same ids and scores position by position
and every id resolves in the side hash to the corresponding user's display
fields, the two entry-building loops produce the same display data. -/
theorem mkEntries_display (meta : List (String × UserMeta)) (bcOf : String → Int) :
    ∀ (i : Nat) (zs : List ZEntry) (us : List User),
      zs.map zPair = us.map uPair →
      (∀ u ∈ us, List.lookup u.id meta =
        some { name := u.name, level := u.level, badgeCount := bcOf u.id }) →
      (mkRedisEntries meta i zs).map entryDisplay = (mkDbEntries i us).map entryDisplay := by
  intro i zs
  induction zs generalizing i with
  | nil =>
    intro us hmap _
    cases us with
    | nil => rfl
    | cons u us => simp [zPair, uPair] at hmap
  | cons z zs ih =>
    intro us hmap hmeta
    cases us with
    | nil => simp [zPair, uPair] at hmap
    | cons u us =>
      simp only [List.map_cons, List.cons.injEq] at hmap
      obtain ⟨hzu, hrest⟩ := hmap
      have hmem : z.member = u.id := congrArg Prod.fst hzu
      have hscore : z.score = u.totalSpent := congrArg Prod.snd hzu
      unfold mkRedisEntries mkDbEntries
      rw [hmem, hmeta u (List.mem_cons_self u us)]
      simp only [List.map_cons, List.cons.injEq]
      constructor
      · simp [entryDisplay, hscore]
      · exact ih (i + 1) us hrest (fun v hv => hmeta v (List.mem_cons_of_mem u hv))

/-- C7 corrected: with a cache exactly synchronized to the user store (same
ids and scores, ascending ranked set, side hash carrying each buyer's name
and level) and no score ties, the cache path and the database fallback agree
on the shared display data of every entry: same names, scores, 1-based ranks
and levels in the same order.  Full entry equality fails (the counterexample):
the cache path never fills the user id, and its badge count comes from the
cached metadata while the fallback leaves it 0; tie order also differs, the
ranked set falling back to member order where the SQL sort has no secondary
key. -/
theorem C7_leaderboard_parity (s : DBState) (cache : RedisCache) (limit : Int)
    (bcOf : String → Int)
    (hlim : 1 ≤ limit)
    (hsorted : cache.zset.Pairwise (fun a b => a.score < b.score))
    (hperm : (cache.zset.map zPair).Perm ((buyersOf s).map uPair))
    (hspent : ((buyersOf s).map (fun u => u.totalSpent)).Nodup)
    (hmeta : ∀ u ∈ buyersOf s, List.lookup u.id cache.meta =
      some { name := u.name, level := u.level, badgeCount := bcOf u.id }) :
    (GetLeaderboard cache limit).map entryDisplay =
      (generateBuyerLeaderboardFromDB s limit).map entryDisplay := by
  unfold GetLeaderboard generateBuyerLeaderboardFromDB gormLimit
  rw [zRevRange_limit _ _ hlim, if_neg (by omega)]
  haveI : IsTotal User (fun a b : User => b.totalSpent ≤ a.totalSpent) :=
    ⟨fun a b => le_total b.totalSpent a.totalSpent⟩
  haveI : IsTrans User (fun a b : User => b.totalSpent ≤ a.totalSpent) :=
    ⟨fun _ _ _ h1 h2 => le_trans h2 h1⟩
  have hsortPerm := List.perm_insertionSort
    (fun a b : User => b.totalSpent ≤ a.totalSpent) (buyersOf s)
  have hdbStrict :
      (List.insertionSort (fun a b : User => b.totalSpent ≤ a.totalSpent)
        (buyersOf s)).Pairwise (fun a b => b.totalSpent < a.totalSpent) := by
    have hle := List.sorted_insertionSort
      (fun a b : User => b.totalSpent ≤ a.totalSpent) (buyersOf s)
    have hnd : ((List.insertionSort (fun a b : User => b.totalSpent ≤ a.totalSpent)
        (buyersOf s)).map (fun u => u.totalSpent)).Nodup :=
      ((hsortPerm.map (fun u => u.totalSpent)).nodup_iff).mpr hspent
    have hne := List.pairwise_map.mp
      (show ((List.insertionSort (fun a b : User => b.totalSpent ≤ a.totalSpent)
        (buyersOf s)).map (fun u => u.totalSpent)).Pairwise (fun a b => a ≠ b) from hnd)
    exact (hle.and hne).imp (fun h => lt_of_le_of_ne h.1 (Ne.symm h.2))
  have hp1 : (cache.zset.reverse.map zPair).Pairwise
      (fun x y : String × ℚ => y.2 < x.2) := by
    refine List.pairwise_map.mpr ?_
    refine List.pairwise_reverse.mpr ?_
    exact hsorted.imp (fun h => h)
  have hp2 : ((List.insertionSort (fun a b : User => b.totalSpent ≤ a.totalSpent)
      (buyersOf s)).map uPair).Pairwise (fun x y : String × ℚ => y.2 < x.2) := by
    refine List.pairwise_map.mpr ?_
    exact hdbStrict.imp (fun h => h)
  have hpp : (cache.zset.reverse.map zPair).Perm
      ((List.insertionSort (fun a b : User => b.totalSpent ≤ a.totalSpent)
        (buyersOf s)).map uPair) :=
    ((cache.zset.reverse_perm).map zPair).trans (hperm.trans (hsortPerm.symm.map uPair))
  have heq := perm_sorted_desc_eq Prod.snd _ _ hpp hp1 hp2
  refine mkEntries_display cache.meta bcOf 0 _ _ ?_ ?_
  · rw [List.map_take, List.map_take, heq]
  · intro u hu
    exact hmeta u (hsortPerm.subset (List.take_subset _ _ hu))

/-- C7 counterexample: with a one-buyer store and a cache exactly in sync
with it, the cache path and the database fallback disagree as full entries:
redis.GetLeaderboard never fills the user id field (it stays uuid.Nil), the
database path fills it from the row. -/
theorem C7_counterexample :
    GetLeaderboard parityCache 10 ≠ generateBuyerLeaderboardFromDB parityState 10 := by
  decide

/-- C7 witness: the two-buyer synced fixture, display data agrees on both
paths. -/
theorem C7_leaderboard_parity_witness :
    (GetLeaderboard parityCache2 10).map entryDisplay =
      (generateBuyerLeaderboardFromDB parityState2 10).map entryDisplay :=
  C7_leaderboard_parity parityState2 parityCache2 10 (fun _ => 0) (by decide) (by decide)
    (by decide) (by decide) (by decide)

/-! ## Badge Engine lemmas -/

/-- awardXP never touches the badge catalog. -/
theorem awardXP_badges (s : DBState) (c k : Bool) (uid : String) (amt : Int) (r : String) :
    (awardXP s c k uid amt r).badges = s.badges := by
  unfold awardXP
  cases c <;> cases k <;> rfl

/-- awardXP never touches the user_badges table. -/
theorem awardXP_userBadges (s : DBState) (c k : Bool) (uid : String) (amt : Int) (r : String) :
    (awardXP s c k uid amt r).userBadges = s.userBadges := by
  unfold awardXP
  cases c <;> cases k <;> rfl

/-- The award step keeps the badge catalog. -/
theorem awardStep_badges (user : User) (o : AwardOracle) (s : DBState) (badge : Badge) :
    (awardStep user o s badge).badges = s.badges := by
  unfold awardStep
  split_ifs <;> simp [awardXP_badges]

/-- The award step appends exactly the inserted user_badges row. -/
theorem awardStep_userBadges (user : User) (o : AwardOracle) (s : DBState) (badge : Badge) :
    (awardStep user o s badge).userBadges =
      s.userBadges ++ [{ id := s.nextID, userID := user.id, badgeID := badge.id }] := by
  unfold awardStep
  split_ifs <;> simp [awardXP_userBadges]

/-- find? by id over a catalog with distinct ids recovers the member row. -/
theorem find?_badge_nodup (bs : List Badge) (b : Badge)
    (hnd : (bs.map (fun x => x.id)).Nodup) (hb : b ∈ bs) :
    bs.find? (fun x => x.id = b.id) = some b := by
  induction bs with
  | nil => cases hb
  | cons a rest ih =>
    simp only [List.map_cons, List.nodup_cons] at hnd
    rcases List.mem_cons.mp hb with h | h
    · subst h
      simp [List.find?_cons]
    · have hne : ¬ (a.id = b.id) := by
        intro he
        exact hnd.1 (he ▸ List.mem_map_of_mem (fun x => x.id) h)
      simp [List.find?_cons, hne, ih hnd.2 h]

/-- checkAndAwardBadgesGo skips a held badge type. -/
theorem go_cons_held (user : User) (o : AwardOracle) (held : List BadgeType)
    (s : DBState) (badge : Badge) (rest : List Badge)
    (h : held.contains badge.type = true) :
    checkAndAwardBadgesGo user o held s (badge :: rest) =
      checkAndAwardBadgesGo user o held s rest := by
  have hmem : badge.type ∈ held := by simpa using h
  rw [checkAndAwardBadgesGo.eq_def]
  simp [hmem]

/-- checkAndAwardBadgesGo skips a non-qualifying badge. -/
theorem go_cons_noqual (user : User) (o : AwardOracle) (held : List BadgeType)
    (s : DBState) (badge : Badge) (rest : List Badge)
    (h1 : held.contains badge.type = false)
    (h2 : badgeShouldAward s user badge.type = false) :
    checkAndAwardBadgesGo user o held s (badge :: rest) =
      checkAndAwardBadgesGo user o held s rest := by
  rw [checkAndAwardBadgesGo.eq_def]
  simp [h1, h2]

/-- checkAndAwardBadgesGo skips a badge whose insert fails. -/
theorem go_cons_insfail (user : User) (o : AwardOracle) (held : List BadgeType)
    (s : DBState) (badge : Badge) (rest : List Badge)
    (h1 : held.contains badge.type = false)
    (h2 : badgeShouldAward s user badge.type = true)
    (h3 : o.insertOk badge.id = false) :
    checkAndAwardBadgesGo user o held s (badge :: rest) =
      checkAndAwardBadgesGo user o held s rest := by
  rw [checkAndAwardBadgesGo.eq_def]
  simp [h1, h2, h3]

/-- checkAndAwardBadgesGo awards a qualifying, not-held badge whose insert
lands. -/
theorem go_cons_ins (user : User) (o : AwardOracle) (held : List BadgeType)
    (s : DBState) (badge : Badge) (rest : List Badge)
    (h1 : held.contains badge.type = false)
    (h2 : badgeShouldAward s user badge.type = true)
    (h3 : o.insertOk badge.id = true) :
    checkAndAwardBadgesGo user o held s (badge :: rest) =
      ((checkAndAwardBadgesGo user o held (awardStep user o s badge) rest).1,
       { id := s.nextID, userID := user.id, badgeID := badge.id } ::
         (checkAndAwardBadgesGo user o held (awardStep user o s badge) rest).2) := by
  have hmem : badge.type ∉ held := by simpa using h1
  rw [checkAndAwardBadgesGo.eq_def]
  simp [hmem, h2, h3]

/-- Structure of one checkAndAwardBadges loop run: the catalog is unchanged,
the user_badges table grows by exactly the returned new rows, every new row
belongs to the given user and stems from a catalog entry whose type was not
held at loop entry, and the new rows' badge ids follow the catalog order. -/
theorem go_state (user : User) (o : AwardOracle) (held : List BadgeType) :
    ∀ (l : List Badge) (s : DBState),
      (checkAndAwardBadgesGo user o held s l).1.badges = s.badges ∧
      (checkAndAwardBadgesGo user o held s l).1.userBadges =
        s.userBadges ++ (checkAndAwardBadgesGo user o held s l).2 ∧
      (∀ ub ∈ (checkAndAwardBadgesGo user o held s l).2,
        ub.userID = user.id ∧
        ∃ b ∈ l, ub.badgeID = b.id ∧ held.contains b.type = false) ∧
      ((checkAndAwardBadgesGo user o held s l).2.map (fun ub => ub.badgeID)).Sublist
        (l.map (fun b => b.id)) := by
  intro l
  induction l with
  | nil =>
    intro s
    refine ⟨rfl, by simp [checkAndAwardBadgesGo], by simp [checkAndAwardBadgesGo],
      by simp [checkAndAwardBadgesGo]⟩
  | cons badge rest ih =>
    intro s
    have skip : checkAndAwardBadgesGo user o held s (badge :: rest) =
        checkAndAwardBadgesGo user o held s rest →
        (checkAndAwardBadgesGo user o held s (badge :: rest)).1.badges = s.badges ∧
        (checkAndAwardBadgesGo user o held s (badge :: rest)).1.userBadges =
          s.userBadges ++ (checkAndAwardBadgesGo user o held s (badge :: rest)).2 ∧
        (∀ ub ∈ (checkAndAwardBadgesGo user o held s (badge :: rest)).2,
          ub.userID = user.id ∧
          ∃ b ∈ badge :: rest, ub.badgeID = b.id ∧ held.contains b.type = false) ∧
        ((checkAndAwardBadgesGo user o held s (badge :: rest)).2.map
          (fun ub => ub.badgeID)).Sublist ((badge :: rest).map (fun b => b.id)) := by
      intro he
      rw [he]
      obtain ⟨ha, hb, hc, hd⟩ := ih s
      refine ⟨ha, hb, ?_, ?_⟩
      · intro ub hub
        obtain ⟨h5, b, hbm, h6⟩ := hc ub hub
        exact ⟨h5, b, List.mem_cons_of_mem badge hbm, h6⟩
      · exact hd.trans (List.sublist_cons_self badge.id (rest.map (fun b => b.id))
          |>.trans (by rfl))
    cases h1 : held.contains badge.type with
    | true => exact skip (go_cons_held user o held s badge rest h1)
    | false =>
      cases h2 : badgeShouldAward s user badge.type with
      | false => exact skip (go_cons_noqual user o held s badge rest h1 h2)
      | true =>
        cases h3 : o.insertOk badge.id with
        | false => exact skip (go_cons_insfail user o held s badge rest h1 h2 h3)
        | true =>
          rw [go_cons_ins user o held s badge rest h1 h2 h3]
          obtain ⟨ha, hb, hc, hd⟩ := ih (awardStep user o s badge)
          refine ⟨?_, ?_, ?_, ?_⟩
          · rw [ha, awardStep_badges]
          · rw [hb, awardStep_userBadges]
            simp
          · intro ub hub
            rcases List.mem_cons.mp hub with h | h
            · subst h
              exact ⟨rfl, badge, List.mem_cons_self badge rest, rfl, h1⟩
            · obtain ⟨h5, b, hbm, h6⟩ := hc ub h
              exact ⟨h5, b, List.mem_cons_of_mem badge hbm, h6⟩
          · simpa using List.Sublist.cons₂ badge.id hd

/-- The resolved badge type only depends on the badge catalog. -/
theorem ubType_congr (s1 s2 : DBState) (ub : UserBadge) (h : s1.badges = s2.badges) :
    ubType s1 ub = ubType s2 ub := by
  unfold ubType
  rw [h]

/-- A held row's type is in the existingBadgeTypes set of its user. -/
theorem mem_existingBadgeTypes (s : DBState) (uid : String) (ub : UserBadge)
    (h1 : ub ∈ s.userBadges) (h2 : ub.userID = uid) :
    ubType s ub ∈ existingBadgeTypes s uid := by
  unfold existingBadgeTypes
  exact List.mem_map_of_mem _ (List.mem_filter.mpr ⟨h1, by simp [h2]⟩)

/-- Conversely every member of existingBadgeTypes stems from a held row. -/
theorem existingBadgeTypes_mem (s : DBState) (uid : String) (t : BadgeType)
    (h : t ∈ existingBadgeTypes s uid) :
    ∃ ub ∈ s.userBadges, ub.userID = uid ∧ ubType s ub = t := by
  unfold existingBadgeTypes at h
  obtain ⟨ub, hub, he⟩ := List.mem_map.mp h
  have hf := List.mem_filter.mp hub
  exact ⟨ub, hf.1, by simpa using hf.2, he⟩

/-- Every new row of a checkAndAwardBadges run belongs to the user, stems
from a catalog entry with that id, resolves to that entry's type, and that
type was not held at entry. -/
theorem news_ubType (s : DBState) (user : User) (o : AwardOracle)
    (hids : (s.badges.map (fun b => b.id)).Nodup) :
    ∀ ub ∈ (checkAndAwardBadges s user o).2,
      ub.userID = user.id ∧
      ∃ b ∈ s.badges, ub.badgeID = b.id ∧ ubType s ub = b.type ∧
        (existingBadgeTypes s user.id).contains b.type = false := by
  intro ub hub
  obtain ⟨-, -, hc, -⟩ := go_state user o (existingBadgeTypes s user.id) s.badges s
  obtain ⟨h5, b, hbm, h6, h7⟩ := hc ub hub
  refine ⟨h5, b, hbm, h6, ?_, h7⟩
  unfold ubType
  rw [h6, find?_badge_nodup s.badges b hids hbm]
  rfl

/-- Within one checkAndAwardBadges run, the types of the new rows are
pairwise distinct (the catalog has unique ids and types). -/
theorem news_types_nodup (s : DBState) (user : User) (o : AwardOracle)
    (hids : (s.badges.map (fun b => b.id)).Nodup)
    (htypes : (s.badges.map (fun b => b.type)).Nodup) :
    ((checkAndAwardBadges s user o).2.map (fun ub => ubType s ub)).Nodup := by
  obtain ⟨-, -, -, hd⟩ := go_state user o (existingBadgeTypes s user.id) s.badges s
  have hsub := hd.map
    (fun i => ((s.badges.find? (fun b => b.id = i)).map (fun b => b.type)).getD "")
  rw [List.map_map, List.map_map] at hsub
  have hR : (s.badges.map ((fun i =>
      ((s.badges.find? (fun b => b.id = i)).map (fun b => b.type)).getD "") ∘
        (fun b => b.id))) = s.badges.map (fun b => b.type) :=
    List.map_congr_left (fun b hb => by
      simp only [Function.comp]
      rw [find?_badge_nodup s.badges b hids hb]
      rfl)
  rw [hR] at hsub
  exact List.Nodup.sublist hsub htypes

/-- A list without duplicates holds any given value at most once. -/
theorem countP_le_one_of_nodup (l : List BadgeType) (hl : l.Nodup) (t : BadgeType) :
    l.countP (fun x => x = t) ≤ 1 := by
  induction l with
  | nil => simp
  | cons a l ih =>
    rw [List.countP_cons]
    rcases List.nodup_cons.mp hl with ⟨ha, hl2⟩
    by_cases h : a = t
    · subst h
      have hz : l.countP (fun x => x = a) = 0 :=
        List.countP_eq_zero.mpr (fun x hx hpx => ha (of_decide_eq_true hpx ▸ hx))
      simp [hz]
    · simpa [h] using ih hl2

/-- C1 confirmed: running checkAndAwardBadges twice in sequence on an
unchanged user awards each badge type at most once across the two runs, and
every row the second run awards has a type not yet held after the first run
(the second run skips everything the first run awarded, because the first run
inserted those rows before the second run reads its existingBadgeTypes set).
The catalog hypotheses mirror the gorm uniqueIndex on badges.type and the
primary key on badges.id. -/
theorem C1_badge_idempotent (s : DBState) (user : User) (o1 o2 : AwardOracle)
    (hids : (s.badges.map (fun b => b.id)).Nodup)
    (htypes : (s.badges.map (fun b => b.type)).Nodup) :
    (∀ t : BadgeType,
      ((checkAndAwardBadges s user o1).2 ++
        (checkAndAwardBadges (checkAndAwardBadges s user o1).1 user o2).2).countP
          (fun ub => ubType s ub = t) ≤ 1) ∧
    (∀ ub ∈ (checkAndAwardBadges (checkAndAwardBadges s user o1).1 user o2).2,
      ubType s ub ∉ existingBadgeTypes (checkAndAwardBadges s user o1).1 user.id) := by
  obtain ⟨hbadges, hub1, -, -⟩ :=
    go_state user o1 (existingBadgeTypes s user.id) s.badges s
  have hids1 : ((checkAndAwardBadges s user o1).1.badges.map (fun b => b.id)).Nodup := by
    rw [show (checkAndAwardBadges s user o1).1.badges = s.badges from hbadges]
    exact hids
  have htypes1 : ((checkAndAwardBadges s user o1).1.badges.map (fun b => b.type)).Nodup := by
    rw [show (checkAndAwardBadges s user o1).1.badges = s.badges from hbadges]
    exact htypes
  have hsecond :
      ∀ ub ∈ (checkAndAwardBadges (checkAndAwardBadges s user o1).1 user o2).2,
        ubType s ub ∉ existingBadgeTypes (checkAndAwardBadges s user o1).1 user.id := by
    intro ub hub
    obtain ⟨-, b, -, -, hty, hcont⟩ :=
      news_ubType (checkAndAwardBadges s user o1).1 user o2 hids1 ub hub
    rw [ubType_congr s (checkAndAwardBadges s user o1).1 ub hbadges.symm, hty]
    intro hmem
    rw [show ((existingBadgeTypes (checkAndAwardBadges s user o1).1 user.id).contains
      b.type) = true from by simpa using hmem] at hcont
    cases hcont
  refine ⟨?_, hsecond⟩
  intro t
  have hm1 : ((checkAndAwardBadges s user o1).2.map (fun ub => ubType s ub)).Nodup :=
    news_types_nodup s user o1 hids htypes
  have hm2 : ((checkAndAwardBadges (checkAndAwardBadges s user o1).1 user o2).2.map
      (fun ub => ubType s ub)).Nodup := by
    have h0 := news_types_nodup (checkAndAwardBadges s user o1).1 user o2 hids1 htypes1
    have he : (checkAndAwardBadges (checkAndAwardBadges s user o1).1 user o2).2.map
        (fun ub => ubType (checkAndAwardBadges s user o1).1 ub) =
        (checkAndAwardBadges (checkAndAwardBadges s user o1).1 user o2).2.map
          (fun ub => ubType s ub) :=
      List.map_congr_left (fun ub _ =>
        ubType_congr (checkAndAwardBadges s user o1).1 s ub hbadges)
    rw [he] at h0
    exact h0
  have hdisj : ((checkAndAwardBadges s user o1).2.map (fun ub => ubType s ub)).Disjoint
      ((checkAndAwardBadges (checkAndAwardBadges s user o1).1 user o2).2.map
        (fun ub => ubType s ub)) := by
    intro x hx1 hx2
    obtain ⟨ub1, hub1m, he1⟩ := List.mem_map.mp hx1
    obtain ⟨ub2, hub2m, he2⟩ := List.mem_map.mp hx2
    have huser1 : ub1.userID = user.id :=
      ((go_state user o1 (existingBadgeTypes s user.id) s.badges s).2.2.1 ub1 hub1m).1
    have hmem1 : ub1 ∈ (checkAndAwardBadges s user o1).1.userBadges := by
      show ub1 ∈ (checkAndAwardBadgesGo user o1 (existingBadgeTypes s user.id) s s.badges).1.userBadges
      rw [hub1]
      exact List.mem_append.mpr (Or.inr hub1m)
    have : ubType (checkAndAwardBadges s user o1).1 ub1 ∈
        existingBadgeTypes (checkAndAwardBadges s user o1).1 user.id :=
      mem_existingBadgeTypes _ _ ub1 hmem1 huser1
    rw [ubType_congr (checkAndAwardBadges s user o1).1 s ub1 hbadges, he1] at this
    exact hsecond ub2 hub2m (by rw [he2]; exact this)
  have hnd : (((checkAndAwardBadges s user o1).2 ++
      (checkAndAwardBadges (checkAndAwardBadges s user o1).1 user o2).2).map
        (fun ub => ubType s ub)).Nodup := by
    rw [List.map_append]
    exact List.Nodup.append hm1 hm2 hdisj
  have hcp := countP_le_one_of_nodup _ hnd t
  rw [List.countP_map] at hcp
  exact hcp

/-- C1 witness: on the fixture store the first run awards the FirstOrder
badge exactly once and the second run awards nothing. -/
theorem C1_badge_idempotent_witness :
    ((checkAndAwardBadges badgeState exUser allWritesOk).2 ++
      (checkAndAwardBadges (checkAndAwardBadges badgeState exUser allWritesOk).1
        exUser allWritesOk).2).countP
        (fun ub => ubType badgeState ub = BadgeFirstOrder) ≤ 1 ∧
    (checkAndAwardBadges badgeState exUser allWritesOk).2.length = 1 ∧
    (checkAndAwardBadges (checkAndAwardBadges badgeState exUser allWritesOk).1
      exUser allWritesOk).2 = [] :=
  ⟨(C1_badge_idempotent badgeState exUser allWritesOk allWritesOk
      (by decide) (by decide)).1 BadgeFirstOrder,
   by decide, by decide⟩

/-- The catalog and the user_badges table after checkAndAwardBadges. -/
theorem checkAndAwardBadges_state (s : DBState) (user : User) (o : AwardOracle) :
    (checkAndAwardBadges s user o).1.badges = s.badges ∧
    (checkAndAwardBadges s user o).1.userBadges =
      s.userBadges ++ (checkAndAwardBadges s user o).2 :=
  ⟨(go_state user o (existingBadgeTypes s user.id) s.badges s).1,
   (go_state user o (existingBadgeTypes s user.id) s.badges s).2.1⟩

/-- callGamificationService never touches the badge catalog. -/
theorem callGamificationService_badges (s : DBState) (c k : Bool) (uid : String)
    (amt : Int) (r rf : String) :
    (callGamificationService s c k uid amt r rf).badges = s.badges := by
  unfold callGamificationService
  cases c <;> cases k <;> rfl

/-- callGamificationService never touches the user_badges table. -/
theorem callGamificationService_userBadges (s : DBState) (c k : Bool) (uid : String)
    (amt : Int) (r rf : String) :
    (callGamificationService s c k uid amt r rf).userBadges = s.userBadges := by
  unfold callGamificationService
  cases c <;> cases k <;> rfl

/-- The uniqueness invariant only depends on the user_badges rows and the
catalog. -/
theorem badgeAwardUnique_congr (s1 s2 : DBState)
    (h1 : s1.userBadges = s2.userBadges) (h2 : s1.badges = s2.badges) :
    badgeAwardUnique s1 ↔ badgeAwardUnique s2 := by
  unfold badgeAwardUnique ubType
  rw [h1, h2]

/-- A held (user, type) pair makes the existence-check join of
checkAndAwardBadge come out true. -/
theorem held_any (s : DBState) (uid : String) (t : BadgeType)
    (hids : (s.badges.map (fun b => b.id)).Nodup)
    (hfk : ∀ ub ∈ s.userBadges, ∃ b ∈ s.badges, ub.badgeID = b.id)
    (ub : UserBadge) (hub : ub ∈ s.userBadges) (hu : ub.userID = uid)
    (ht : ubType s ub = t) :
    (s.userBadges.any (fun x => x.userID = uid &&
      s.badges.any (fun b => b.id = x.badgeID && b.type = t))) = true := by
  rw [List.any_eq_true]
  refine ⟨ub, hub, ?_⟩
  obtain ⟨b, hbm, hbid⟩ := hfk ub hub
  have hty : ubType s ub = b.type := by
    unfold ubType
    rw [hbid, find?_badge_nodup s.badges b hids hbm]
    rfl
  simp only [Bool.and_eq_true, decide_eq_true_eq]
  refine ⟨hu, ?_⟩
  rw [List.any_eq_true]
  refine ⟨b, hbm, ?_⟩
  simp only [Bool.and_eq_true, decide_eq_true_eq]
  exact ⟨hbid.symm, by rw [← hty, ht]⟩

/-- C9 confirmed: both badge-awarding operations preserve the
at-most-one-award-per-(user, badge type) invariant, and neither inserts an
award for a pair that already holds one: the gamification engine only awards
types outside its existingBadgeTypes snapshot, and the order service's
checkAndAwardBadge returns the store unchanged whenever the (user, type) pair
is already held.  The hypotheses mirror the primary key and uniqueIndex on
the badges table and the foreign key from user_badges to badges. -/
theorem C9_badge_uniqueness (s : DBState) (user : User) (o : AwardOracle)
    (uid : String) (t : BadgeType) (insOk c2 c3 : Bool)
    (hids : (s.badges.map (fun b => b.id)).Nodup)
    (htypes : (s.badges.map (fun b => b.type)).Nodup)
    (hfk : ∀ ub ∈ s.userBadges, ∃ b ∈ s.badges, ub.badgeID = b.id)
    (hinv : badgeAwardUnique s) :
    badgeAwardUnique (checkAndAwardBadges s user o).1 ∧
    (∀ ub ∈ (checkAndAwardBadges s user o).2,
      ubType s ub ∉ existingBadgeTypes s user.id) ∧
    badgeAwardUnique (checkAndAwardBadge s uid t insOk c2 c3) ∧
    ((∃ ub ∈ s.userBadges, ub.userID = uid ∧ ubType s ub = t) →
      checkAndAwardBadge s uid t insOk c2 c3 = s) := by
  have hbadges := (checkAndAwardBadges_state s user o).1
  have hubs := (checkAndAwardBadges_state s user o).2
  refine ⟨?_, ?_, ?_, ?_⟩
  · unfold badgeAwardUnique
    rw [hubs, List.pairwise_append]
    refine ⟨?_, ?_, ?_⟩
    · refine hinv.imp ?_
      intro a b h hc
      refine h ⟨hc.1, ?_⟩
      rw [← ubType_congr (checkAndAwardBadges s user o).1 s a hbadges,
        ← ubType_congr (checkAndAwardBadges s user o).1 s b hbadges]
      exact hc.2
    · have hnd := news_types_nodup s user o hids htypes
      have hp := List.pairwise_map.mp hnd
      refine hp.imp ?_
      intro a b h hc
      refine h ?_
      rw [← ubType_congr (checkAndAwardBadges s user o).1 s a hbadges,
        ← ubType_congr (checkAndAwardBadges s user o).1 s b hbadges]
      exact hc.2
    · intro a ha b hb hc
      obtain ⟨huser, b2, hbm2, hbid, hty, hcont⟩ := news_ubType s user o hids b hb
      have hmema : ubType s a ∈ existingBadgeTypes s user.id :=
        mem_existingBadgeTypes s user.id a ha (hc.1.trans huser)
      have hab : ubType s a = ubType s b := by
        rw [← ubType_congr (checkAndAwardBadges s user o).1 s a hbadges,
          ← ubType_congr (checkAndAwardBadges s user o).1 s b hbadges]
        exact hc.2
      rw [hab, hty] at hmema
      rw [show (existingBadgeTypes s user.id).contains b2.type = true from
        by simpa using hmema] at hcont
      cases hcont
  · intro ub hub
    obtain ⟨-, b, -, -, hty, hcont⟩ := news_ubType s user o hids ub hub
    rw [hty]
    intro hmem
    rw [show (existingBadgeTypes s user.id).contains b.type = true from
      by simpa using hmem] at hcont
    cases hcont
  · rw [checkAndAwardBadge.eq_def]
    cases hu : userRec s uid with
    | none => exact hinv
    | some user0 =>
      dsimp only
      by_cases hex : (s.userBadges.any (fun ub => ub.userID = uid &&
          s.badges.any (fun b => b.id = ub.badgeID && b.type = t))) = true
      · rw [if_pos hex]
        exact hinv
      · rw [if_neg hex]
        cases hfb : s.badges.find? (fun b => b.type = t) with
        | none => exact hinv
        | some badge =>
          dsimp only
          by_cases hq : badgeShouldAwardOrder s user0 t = true
          · rw [if_pos hq]
            have hbm : badge ∈ s.badges := List.mem_of_find?_eq_some hfb
            have hbt : badge.type = t := by simpa using List.find?_some hfb
            have hIns : badgeAwardUnique
                { s with
                  userBadges := s.userBadges ++
                    [{ id := s.nextID, userID := uid, badgeID := badge.id }],
                  nextID := s.nextID + 1 } := by
              unfold badgeAwardUnique
              show (s.userBadges ++
                [({ id := s.nextID, userID := uid, badgeID := badge.id } : UserBadge)]).Pairwise _
              rw [List.pairwise_append]
              refine ⟨?_, by simp, ?_⟩
              · refine hinv.imp ?_
                intro x y h hcc
                refine h ⟨hcc.1, ?_⟩
                rw [← ubType_congr { s with
                    userBadges := s.userBadges ++
                      [{ id := s.nextID, userID := uid, badgeID := badge.id }],
                    nextID := s.nextID + 1 } s x rfl,
                  ← ubType_congr { s with
                    userBadges := s.userBadges ++
                      [{ id := s.nextID, userID := uid, badgeID := badge.id }],
                    nextID := s.nextID + 1 } s y rfl]
                exact hcc.2
              · intro x hx y hy hcc
                have hy2 : y = { id := s.nextID, userID := uid, badgeID := badge.id } := by
                  simpa using hy
                have hxty : ubType s x = t := by
                  have h1 := hcc.2
                  rw [ubType_congr { s with
                      userBadges := s.userBadges ++
                        [{ id := s.nextID, userID := uid, badgeID := badge.id }],
                      nextID := s.nextID + 1 } s x rfl,
                    ubType_congr { s with
                      userBadges := s.userBadges ++
                        [{ id := s.nextID, userID := uid, badgeID := badge.id }],
                      nextID := s.nextID + 1 } s y rfl, hy2] at h1
                  rw [h1]
                  unfold ubType
                  simp only
                  rw [find?_badge_nodup s.badges badge hids hbm]
                  simpa using hbt
                have hxu : x.userID = uid := by
                  have h2 := hcc.1
                  rw [hy2] at h2
                  exact h2
                exact hex (held_any s uid t hids hfk x hx hxu hxty)
            by_cases hxp : (0 : Int) < badge.xpReward
            · rw [if_pos hxp]
              rw [badgeAwardUnique_congr
                (callGamificationService (if insOk = true then
                  ({ s with
                    userBadges := s.userBadges ++
                      [{ id := s.nextID, userID := uid, badgeID := badge.id }],
                    nextID := s.nextID + 1 } : DBState)
                  else s) c2 c3 uid badge.xpReward ("Badge: " ++ badge.name) "")
                (if insOk = true then
                  ({ s with
                    userBadges := s.userBadges ++
                      [{ id := s.nextID, userID := uid, badgeID := badge.id }],
                    nextID := s.nextID + 1 } : DBState)
                  else s)
                (callGamificationService_userBadges _ _ _ _ _ _ _)
                (callGamificationService_badges _ _ _ _ _ _ _)]
              cases insOk with
              | true => simpa using hIns
              | false => simpa using hinv
            · rw [if_neg hxp]
              cases insOk with
              | true => simpa using hIns
              | false => simpa using hinv
          · rw [if_neg hq]
            exact hinv
  · intro hheld
    obtain ⟨ub, hub, hu, ht⟩ := hheld
    rw [checkAndAwardBadge.eq_def]
    cases hu2 : userRec s uid with
    | none => rfl
    | some user0 =>
      dsimp only
      rw [if_pos (held_any s uid t hids hfk ub hub hu ht)]

/-- C9 witness: both operations leave the fixture store satisfying the
uniqueness invariant. -/
theorem C9_badge_uniqueness_witness :
    badgeAwardUnique (checkAndAwardBadges badgeState exUser allWritesOk).1 ∧
    badgeAwardUnique (checkAndAwardBadge badgeState "u1" BadgeFirstOrder true true true) :=
  ⟨(C9_badge_uniqueness badgeState exUser allWritesOk "u1" BadgeFirstOrder true true true
      (by decide) (by decide) (by decide) (by decide)).1,
   (C9_badge_uniqueness badgeState exUser allWritesOk "u1" BadgeFirstOrder true true true
      (by decide) (by decide) (by decide) (by decide)).2.2.1⟩

/-! ## Delivered-order reward lemmas -/

/-- Total sales ignores ledger appends and the id counter. -/
theorem userTotalSales_txs (s : DBState) (l : List XPTransaction) (n : Nat) (uid : String) :
    userTotalSales { s with xpTransactions := l, nextID := n } uid = userTotalSales s uid := rfl

/-- Total sales ignores user_badges appends and the id counter. -/
theorem userTotalSales_userBadges (s : DBState) (l : List UserBadge) (n : Nat) (uid : String) :
    userTotalSales { s with userBadges := l, nextID := n } uid = userTotalSales s uid := rfl

/-- Total sales ignores order-row writes. -/
theorem userTotalSales_saveOrder (s : DBState) (o : Order) (uid : String) :
    userTotalSales (saveOrder s o) uid = userTotalSales s uid := rfl

/-- Total sales ignores XP-counter increments. -/
theorem userTotalSales_incUserTotalXP (s : DBState) (uid0 : String) (amt : Int) (uid : String) :
    userTotalSales (incUserTotalXP s uid0 amt) uid = userTotalSales s uid := by
  unfold userTotalSales
  rw [userRec_incUserTotalXP]
  cases h : userRec s uid with
  | none => rfl
  | some u => by_cases hu : u.id = uid0 <;> simp [hu]

/-- Total sales ignores the order-service XP write. -/
theorem userTotalSales_callG (s : DBState) (c k : Bool) (uid0 : String) (amt : Int)
    (r rf : String) (uid : String) :
    userTotalSales (callGamificationService s c k uid0 amt r rf) uid = userTotalSales s uid := by
  unfold callGamificationService
  cases c <;> cases k <;>
    simp [userTotalSales_incUserTotalXP, userTotalSales_txs]

/-- Total sales ignores the order-service badge check. -/
theorem userTotalSales_checkAndAwardBadge (s : DBState) (uid0 : String) (t : BadgeType)
    (a b c : Bool) (uid : String) :
    userTotalSales (checkAndAwardBadge s uid0 t a b c) uid = userTotalSales s uid := by
  rw [checkAndAwardBadge.eq_def]
  cases userRec s uid0 with
  | none => rfl
  | some user0 =>
    dsimp only
    by_cases h1 : (s.userBadges.any (fun ub => ub.userID = uid0 &&
        s.badges.any (fun bb => bb.id = ub.badgeID && bb.type = t))) = true
    · rw [if_pos h1]
    · rw [if_neg h1]
      cases s.badges.find? (fun bb => bb.type = t) with
      | none => rfl
      | some badge =>
        dsimp only
        by_cases h2 : badgeShouldAwardOrder s user0 t = true
        · rw [if_pos h2]
          by_cases h3 : (0 : Int) < badge.xpReward
          · rw [if_pos h3, userTotalSales_callG]
            cases a <;> simp [userTotalSales_userBadges]
          · rw [if_neg h3]
            cases a <;> simp [userTotalSales_userBadges]
        · rw [if_neg h2]

/-- The target user's total_sales after the storage-level increment. -/
theorem userTotalSales_incTotalSales (s : DBState) (uid : String) (amt : ℚ) (u : User)
    (h : userRec s uid = some u) :
    userTotalSales (incTotalSales s uid amt) uid = userTotalSales s uid + amt := by
  unfold userTotalSales
  rw [userRec_incTotalSales, h]
  simp [userRec_id s uid u h]

/-- Another user's total_sales is untouched by the increment. -/
theorem userTotalSales_incTotalSales_ne (s : DBState) (uid0 uid : String) (amt : ℚ)
    (h : uid ≠ uid0) :
    userTotalSales (incTotalSales s uid0 amt) uid = userTotalSales s uid := by
  unfold userTotalSales
  rw [userRec_incTotalSales]
  cases hr : userRec s uid with
  | none => rfl
  | some u => simp [userRec_id s uid u hr, h]

/-- Row existence is preserved by the total_sales increment. -/
theorem userRec_isSome_incTotalSales (s : DBState) (uid0 : String) (amt : ℚ) (uid : String) :
    (userRec (incTotalSales s uid0 amt) uid).isSome = (userRec s uid).isSome := by
  rw [userRec_incTotalSales]
  cases userRec s uid <;> rfl

/-- Row existence is preserved by the XP-counter increment. -/
theorem userRec_isSome_incUserTotalXP (s : DBState) (uid0 : String) (amt : Int) (uid : String) :
    (userRec (incUserTotalXP s uid0 amt) uid).isSome = (userRec s uid).isSome := by
  rw [userRec_incUserTotalXP]
  cases userRec s uid <;> rfl

/-- Row existence is preserved by the order-service XP write. -/
theorem userRec_isSome_callG (s : DBState) (c k : Bool) (uid0 : String) (amt : Int)
    (r rf : String) (uid : String) :
    (userRec (callGamificationService s c k uid0 amt r rf) uid).isSome =
      (userRec s uid).isSome := by
  unfold callGamificationService
  cases c <;> cases k <;>
    simp [userRec_isSome_incUserTotalXP, userRec_txs]

/-- Row existence is preserved by the per-item reward step. -/
theorem userRec_isSome_deliveredItemStep (oid : String) (st : DBState) (it : OrderItem)
    (uid : String) :
    (userRec (deliveredItemStep oid st it) uid).isSome = (userRec st uid).isSome := by
  unfold deliveredItemStep
  dsimp only
  split_ifs with hxp <;>
    simp [userRec_isSome_callG, userRec_isSome_incTotalSales]

/-- The per-item reward step adds the item's sale amount to its seller. -/
theorem userTotalSales_deliveredItemStep_eq (oid : String) (st : DBState) (it : OrderItem)
    (uid : String) (h : it.sellerID = uid) (hex : (userRec st uid).isSome = true) :
    userTotalSales (deliveredItemStep oid st it) uid =
      userTotalSales st uid + it.price * (it.quantity : ℚ) := by
  subst h
  obtain ⟨u0, hu0⟩ := Option.isSome_iff_exists.mp hex
  unfold deliveredItemStep
  dsimp only
  split_ifs with hxp
  · rw [userTotalSales_callG]
    exact userTotalSales_incTotalSales st it.sellerID _ u0 hu0
  · exact userTotalSales_incTotalSales st it.sellerID _ u0 hu0

/-- The per-item reward step leaves other sellers' sales untouched. -/
theorem userTotalSales_deliveredItemStep_ne (oid : String) (st : DBState) (it : OrderItem)
    (uid : String) (h : ¬ (it.sellerID = uid)) :
    userTotalSales (deliveredItemStep oid st it) uid = userTotalSales st uid := by
  unfold deliveredItemStep
  dsimp only
  split_ifs with hxp <;>
    simp [userTotalSales_callG,
      userTotalSales_incTotalSales_ne st it.sellerID uid _ (fun he => h he.symm)]

/-- Folding the per-item reward step over the items adds, for every existing
user, exactly the sum of the sale amounts of the items that user sells. -/
theorem salesFold (oid : String) :
    ∀ (items : List OrderItem) (st : DBState) (uid : String),
      (userRec st uid).isSome = true →
      userTotalSales (items.foldl (deliveredItemStep oid) st) uid =
        userTotalSales st uid +
          ((items.filter (fun it => it.sellerID = uid)).map
            (fun it => it.price * (it.quantity : ℚ))).sum := by
  intro items
  induction items with
  | nil =>
    intro st uid h
    simp
  | cons it rest ih =>
    intro st uid h
    rw [List.foldl_cons]
    have hex2 : (userRec (deliveredItemStep oid st it) uid).isSome = true := by
      rw [userRec_isSome_deliveredItemStep]
      exact h
    rw [ih (deliveredItemStep oid st it) uid hex2]
    by_cases hs : it.sellerID = uid
    · rw [userTotalSales_deliveredItemStep_eq oid st it uid hs h]
      have hf : (it :: rest).filter (fun x => x.sellerID = uid) =
          it :: rest.filter (fun x => x.sellerID = uid) := by
        simp [List.filter_cons, hs]
      rw [hf, List.map_cons, List.sum_cons]
      ring
    · rw [userTotalSales_deliveredItemStep_ne oid st it uid hs]
      have hf : (it :: rest).filter (fun x => x.sellerID = uid) =
          rest.filter (fun x => x.sellerID = uid) := by
        simp [List.filter_cons, hs]
      rw [hf]

/-- The total_sales increment leaves the ledger unchanged. -/
theorem xpTransactions_incTotalSales (s : DBState) (uid : String) (amt : ℚ) :
    (incTotalSales s uid amt).xpTransactions = s.xpTransactions := rfl

/-- Transactions appended by the order-service XP write. -/
theorem xpTransactions_callG (s : DBState) (c k : Bool) (uid : String) (amt : Int)
    (r rf : String) :
    (callGamificationService s c k uid amt r rf).xpTransactions =
      s.xpTransactions ++ (if c = true then
        [{ id := s.nextID, userID := uid, amount := amt, reason := r, reference := rf }]
      else []) := by
  unfold callGamificationService
  cases c <;> cases k <;> simp [incUserTotalXP]

/-- Appending rows that fail the predicate does not change the count. -/
theorem countP_append_none (p : XPTransaction → Bool) (l l2 : List XPTransaction)
    (h : ∀ tx ∈ l2, p tx = false) :
    (l ++ l2).countP p = l.countP p := by
  rw [List.countP_append]
  have h0 : l2.countP p = 0 := List.countP_eq_zero.mpr (fun a ha => by simp [h a ha])
  omega

/-- Every transaction a checkAndAwardBadge call appends carries an empty
reference. -/
theorem xpTransactions_checkAndAwardBadge (s : DBState) (uid0 : String) (t : BadgeType)
    (a b c : Bool) :
    ∃ l, (checkAndAwardBadge s uid0 t a b c).xpTransactions = s.xpTransactions ++ l ∧
      ∀ tx ∈ l, tx.reference = "" := by
  rw [checkAndAwardBadge.eq_def]
  cases userRec s uid0 with
  | none => exact ⟨[], by simp, by simp⟩
  | some user0 =>
    dsimp only
    by_cases h1 : (s.userBadges.any (fun ub => ub.userID = uid0 &&
        s.badges.any (fun bb => bb.id = ub.badgeID && bb.type = t))) = true
    · rw [if_pos h1]
      exact ⟨[], by simp, by simp⟩
    · rw [if_neg h1]
      cases s.badges.find? (fun bb => bb.type = t) with
      | none => exact ⟨[], by simp, by simp⟩
      | some badge =>
        dsimp only
        by_cases h2 : badgeShouldAwardOrder s user0 t = true
        · rw [if_pos h2]
          by_cases h3 : (0 : Int) < badge.xpReward
          · rw [if_pos h3]
            cases a with
            | true =>
              refine ⟨_, xpTransactions_callG _ b c uid0 badge.xpReward
                ("Badge: " ++ badge.name) "", ?_⟩
              cases b <;> simp
            | false =>
              refine ⟨_, xpTransactions_callG _ b c uid0 badge.xpReward
                ("Badge: " ++ badge.name) "", ?_⟩
              cases b <;> simp
          · rw [if_neg h3]
            cases a <;> exact ⟨[], by simp, by simp⟩
        · rw [if_neg h2]
          exact ⟨[], by simp, by simp⟩

/-- A badge check never changes the count of transactions whose predicate
requires a non-empty reference. -/
theorem countP_checkAndAwardBadge (s : DBState) (uid0 : String) (t : BadgeType)
    (a b c : Bool) (p : XPTransaction → Bool)
    (hp : ∀ tx : XPTransaction, tx.reference = "" → p tx = false) :
    ((checkAndAwardBadge s uid0 t a b c).xpTransactions.countP p) =
      s.xpTransactions.countP p := by
  obtain ⟨l, hl, href⟩ := xpTransactions_checkAndAwardBadge s uid0 t a b c
  rw [hl, countP_append_none]
  exact fun tx htx => hp tx (href tx htx)

/-- The per-item reward step does not add order-completion transactions. -/
theorem countP_deliveredItemStep_completed (oid : String) (st : DBState) (it : OrderItem) :
    ((deliveredItemStep oid st it).xpTransactions.countP
      (fun tx => tx.reason = "Order Completed" && tx.reference = oid)) =
      st.xpTransactions.countP
        (fun tx => tx.reason = "Order Completed" && tx.reference = oid) := by
  unfold deliveredItemStep
  dsimp only
  split_ifs with hxp
  · rw [xpTransactions_callG, countP_append_none]
    · rfl
    · intro tx htx
      have htx2 : tx =
          { id := (incTotalSales st it.sellerID (it.price * (it.quantity : ℚ))).nextID,
            userID := it.sellerID,
            amount := goTrunc (it.price * (it.quantity : ℚ) / 100 * 10),
            reason := "Product Sale", reference := oid } := by
        simpa using htx
      rw [htx2]
      simp
  · rfl

/-- The per-item reward step adds exactly one product-sale transaction for
the order when the item's XP amount is positive, none otherwise. -/
theorem countP_deliveredItemStep_sale (oid : String) (st : DBState) (it : OrderItem) :
    ((deliveredItemStep oid st it).xpTransactions.countP
      (fun tx => tx.reason = "Product Sale" && tx.reference = oid)) =
      st.xpTransactions.countP
        (fun tx => tx.reason = "Product Sale" && tx.reference = oid) +
      (if 0 < goTrunc (it.price * (it.quantity : ℚ) / 100 * 10) then 1 else 0) := by
  unfold deliveredItemStep
  dsimp only
  split_ifs with hxp
  · rw [xpTransactions_callG]
    simp [xpTransactions_incTotalSales, List.countP_append, List.countP_cons, hxp]
  · simp [xpTransactions_incTotalSales, hxp]

/-- Folded over the items, the completed-order count is untouched. -/
theorem countP_fold_completed (oid : String) :
    ∀ (items : List OrderItem) (st : DBState),
      ((items.foldl (deliveredItemStep oid) st).xpTransactions.countP
        (fun tx => tx.reason = "Order Completed" && tx.reference = oid)) =
        st.xpTransactions.countP
          (fun tx => tx.reason = "Order Completed" && tx.reference = oid) := by
  intro items
  induction items with
  | nil => intro st; rfl
  | cons it rest ih =>
    intro st
    rw [List.foldl_cons, ih, countP_deliveredItemStep_completed]

/-- Folded over the items, the product-sale count grows by the number of
items whose XP amount is positive. -/
theorem countP_fold_sale (oid : String) :
    ∀ (items : List OrderItem) (st : DBState),
      ((items.foldl (deliveredItemStep oid) st).xpTransactions.countP
        (fun tx => tx.reason = "Product Sale" && tx.reference = oid)) =
        st.xpTransactions.countP
          (fun tx => tx.reason = "Product Sale" && tx.reference = oid) +
        items.countP (fun it => 0 < goTrunc (it.price * (it.quantity : ℚ) / 100 * 10)) := by
  intro items
  induction items with
  | nil => intro st; simp
  | cons it rest ih =>
    intro st
    rw [List.foldl_cons, ih, countP_deliveredItemStep_sale, List.countP_cons]
    simp only [decide_eq_true_eq]
    omega

/-- The TopSeller badge fold never changes a count whose predicate requires a
non-empty reference. -/
theorem countP_fold_topSeller (p : XPTransaction → Bool)
    (hp : ∀ tx : XPTransaction, tx.reference = "" → p tx = false) :
    ∀ (items : List OrderItem) (st : DBState),
      ((items.foldl topSellerCheckStep st).xpTransactions.countP p) =
        st.xpTransactions.countP p := by
  intro items
  induction items with
  | nil => intro st; rfl
  | cons it rest ih =>
    intro st
    rw [List.foldl_cons, ih]
    exact countP_checkAndAwardBadge st it.sellerID BadgeTopSeller true true true p hp

/-- The TopSeller badge fold leaves every user's total_sales unchanged. -/
theorem userTotalSales_fold_topSeller :
    ∀ (items : List OrderItem) (st : DBState) (uid : String),
      userTotalSales (items.foldl topSellerCheckStep st) uid = userTotalSales st uid := by
  intro items
  induction items with
  | nil => intro st uid; rfl
  | cons it rest ih =>
    intro st uid
    rw [List.foldl_cons, ih]
    exact userTotalSales_checkAndAwardBadge st it.sellerID BadgeTopSeller true true true uid

/-- UpdateOrderStatus on the permitted seller path: the order row is saved
with the new status, and the delivered-order reward processing runs exactly
when the target status is delivered. -/
theorem UpdateOrderStatus_ok (s : DBState) (orderID userID : String)
    (req : UpdateStatusReq) (order : Order)
    (hv : validStatuses.contains req.status = true)
    (hfind : s.orders.find? (fun o => o.id = orderID) = some order)
    (hperm : order.items.any (fun it => it.sellerID = userID) = true) :
    UpdateOrderStatus s orderID userID RoleSeller req =
      ((if req.status = OrderDelivered then
          processDeliveredOrder
            (saveOrder s
              { order with
                status := req.status,
                notes := if req.notes ≠ "" then req.notes else order.notes })
            { order with
              status := req.status,
              notes := if req.notes ≠ "" then req.notes else order.notes }
        else
          saveOrder s
            { order with
              status := req.status,
              notes := if req.notes ≠ "" then req.notes else order.notes }),
       .ok { order with
             status := req.status,
             notes := if req.notes ≠ "" then req.notes else order.notes }) := by
  unfold UpdateOrderStatus
  rw [if_neg (show ¬ ((validStatuses.contains req.status) = false) from by
    rw [hv]
    decide), hfind]
  dsimp only
  rw [if_pos rfl, if_pos hperm]

/-- C10 confirmed: UpdateOrderStatus never consults the order's current
status, so for an order already delivered, a further successful call that
sets delivered again runs the whole delivered-order reward processing once
more: the result is a success, every seller's total_sales grows again by the
sum of the sale amounts of their items, one more order-completion XP
transaction for the order is appended (when the buyer XP amount is positive),
and one more product-sale XP transaction per item with positive XP amount. -/
theorem C10_redelivery_rewards (s : DBState) (orderID userID : String)
    (req : UpdateStatusReq) (order : Order)
    (hfind : s.orders.find? (fun o => o.id = orderID) = some order)
    (hdeliv : order.status = OrderDelivered)
    (hreq : req.status = OrderDelivered)
    (hperm : order.items.any (fun it => it.sellerID = userID) = true)
    (hoid : order.id ≠ "") :
    (∃ o2, (UpdateOrderStatus s orderID userID RoleSeller req).2 = .ok o2 ∧
      o2.status = OrderDelivered) ∧
    (∀ uid, (userRec s uid).isSome = true →
      userTotalSales (UpdateOrderStatus s orderID userID RoleSeller req).1 uid =
        userTotalSales s uid +
          ((order.items.filter (fun it => it.sellerID = uid)).map
            (fun it => it.price * (it.quantity : ℚ))).sum) ∧
    ((UpdateOrderStatus s orderID userID RoleSeller req).1.xpTransactions.countP
        (fun tx => tx.reason = "Order Completed" && tx.reference = order.id) =
      s.xpTransactions.countP
        (fun tx => tx.reason = "Order Completed" && tx.reference = order.id) +
      (if 0 < goTrunc (order.totalAmount / 100 * 5) then 1 else 0)) ∧
    ((UpdateOrderStatus s orderID userID RoleSeller req).1.xpTransactions.countP
        (fun tx => tx.reason = "Product Sale" && tx.reference = order.id) =
      s.xpTransactions.countP
        (fun tx => tx.reason = "Product Sale" && tx.reference = order.id) +
      order.items.countP
        (fun it => 0 < goTrunc (it.price * (it.quantity : ℚ) / 100 * 10))) := by
  have hv : validStatuses.contains req.status = true := by
    rw [hreq]
    decide
  rw [UpdateOrderStatus_ok s orderID userID req order hv hfind hperm]
  rw [if_pos hreq]
  have hcompl : ∀ tx : XPTransaction, tx.reference = "" →
      (tx.reason = "Order Completed" && tx.reference = order.id) = false := by
    intro tx htx
    rw [htx]
    simp [Ne.symm hoid]
  have hsale : ∀ tx : XPTransaction, tx.reference = "" →
      (tx.reason = "Product Sale" && tx.reference = order.id) = false := by
    intro tx htx
    rw [htx]
    simp [Ne.symm hoid]
  refine ⟨⟨_, rfl, by simp [hreq]⟩, ?_, ?_, ?_⟩
  · intro uid hex
    unfold processDeliveredOrder
    dsimp only
    rw [userTotalSales_fold_topSeller, userTotalSales_checkAndAwardBadge]
    have hafter : ∀ st : DBState,
        userTotalSales (if 0 < goTrunc (order.totalAmount / 100 * 5) then
          callGamificationService st true true order.buyerID
            (goTrunc (order.totalAmount / 100 * 5)) "Order Completed" order.id
        else st) uid = userTotalSales st uid := by
      intro st
      split_ifs with hb
      · rw [userTotalSales_callG]
      · rfl
    rw [hafter]
    rw [salesFold order.id order.items (saveOrder s _) uid hex]
    rfl
  · unfold processDeliveredOrder
    dsimp only
    rw [countP_fold_topSeller _ hcompl,
      countP_checkAndAwardBadge _ _ _ _ _ _ _ hcompl]
    have hafter : ∀ st : DBState,
        ((if 0 < goTrunc (order.totalAmount / 100 * 5) then
          callGamificationService st true true order.buyerID
            (goTrunc (order.totalAmount / 100 * 5)) "Order Completed" order.id
        else st).xpTransactions.countP
          (fun tx => tx.reason = "Order Completed" && tx.reference = order.id)) =
        st.xpTransactions.countP
          (fun tx => tx.reason = "Order Completed" && tx.reference = order.id) +
        (if 0 < goTrunc (order.totalAmount / 100 * 5) then 1 else 0) := by
      intro st
      split_ifs with hb
      · rw [xpTransactions_callG, List.countP_append]
        simp
      · rfl
    rw [hafter, countP_fold_completed]
    rfl
  · unfold processDeliveredOrder
    dsimp only
    rw [countP_fold_topSeller _ hsale,
      countP_checkAndAwardBadge _ _ _ _ _ _ _ hsale]
    have hafter : ∀ st : DBState,
        ((if 0 < goTrunc (order.totalAmount / 100 * 5) then
          callGamificationService st true true order.buyerID
            (goTrunc (order.totalAmount / 100 * 5)) "Order Completed" order.id
        else st).xpTransactions.countP
          (fun tx => tx.reason = "Product Sale" && tx.reference = order.id)) =
        st.xpTransactions.countP
          (fun tx => tx.reason = "Product Sale" && tx.reference = order.id) := by
      intro st
      split_ifs with hb
      · rw [xpTransactions_callG, countP_append_none]
        intro tx htx
        have htx2 : tx.reason = "Order Completed" := by
          have h2 := List.eq_of_mem_singleton (by simpa using htx)
          rw [h2]
        rw [htx2]
        simp
      · rfl
    rw [hafter]
    rw [countP_fold_sale order.id order.items (saveOrder s _)]
    rfl

/-- C10 witness: re-delivering the already-delivered fixture order adds the
2 x 100 sale amount of its one item to the seller's total_sales once more. -/
theorem C10_redelivery_rewards_witness :
    userTotalSales (UpdateOrderStatus deliveredState "o2" "s1" RoleSeller
        { status := OrderDelivered, notes := "" }).1 "s1" =
      userTotalSales deliveredState "s1" +
        ((deliveredOrder.items.filter (fun it => it.sellerID = "s1")).map
          (fun it => it.price * (it.quantity : ℚ))).sum :=
  (C10_redelivery_rewards deliveredState "o2" "s1"
      { status := OrderDelivered, notes := "" } deliveredOrder
      (by decide) (by decide) (by decide) (by decide) (by decide)).2.1 "s1" (by decide)
